import Mathlib

/-!
Verification development for the onesub caption layout and styling engine
(`src/onesub/rendering.py`, `src/onesub/config.py`, `src/onesub/models.py`).

Modelling conventions:
* Python floats are modelled as `ℚ` (exact rationals); every numeric literal
  of the source (`0.01`, `0.001`, `0.0001`, `0.1`, `0.5`) is exactly
  representable.
* `float("inf")` as used for `Placement.end` is modelled by `Option ℚ`
  with `none` standing for `+∞`.
* Python `round` (round half to even, as applied to product values that are
  exact here) is modelled by `pyRound`; `abs` by `pyAbs`.
* Python strings are Lean `String`s; all manipulation is done on the
  underlying `List Char` so everything reduces in the kernel.  Python's
  `str.replace` / slicing / `str.find` / `str.strip` / `str.upper` /
  `str.lower` are modelled by the `*Chars` helpers below.
* Python dicts (`dynamics_map`, `word_infos`, `placements_by_segment`) are
  modelled as functions `Int → Option _`; dict construction by iterated
  update (later entries win) is reproduced where the source builds them.
* The single place where the core layout code can raise — `placements[-1]`
  in `_placement_for_time`, an `IndexError` on an empty list — is modelled
  by returning `Option`; `none` means the Python code raises.
-/

namespace OneSub

set_option maxRecDepth 100000

/-! ### Character-list string helpers (Python str operations) -/

/-- Membership test for `"0123456789ABCDEFabcdef"` (`_normalize_hex_color`). -/
def isHexDigitChar (c : Char) : Bool :=
  c.isDigit || (('A' ≤ c) && (c ≤ 'F')) || (('a' ≤ c) && (c ≤ 'f'))

/-- ASCII whitespace test used to model Python `str.strip`. -/
def isSpaceChar (c : Char) : Bool :=
  c = ' ' || c = '\t' || c = '\n' || c = '\r' || c = '\x0b' || c = '\x0c'

/-- Python `str.strip()` on the character list. -/
def trimChars (l : List Char) : List Char :=
  ((l.dropWhile isSpaceChar).reverse.dropWhile isSpaceChar).reverse

/-- Python `str.strip()`. -/
def pyStrip (s : String) : String := String.mk (trimChars s.data)

/-- Python `str.upper()` (ASCII, which is all the source feeds it). -/
def pyUpper (s : String) : String := String.mk (s.data.map Char.toUpper)

/-- Python `str.lower()` (ASCII). -/
def pyLower (s : String) : String := String.mk (s.data.map Char.toLower)

/-- Whether `p` is a prefix of `s`, on character lists. -/
def isPrefixOfChars : List Char → List Char → Bool
  | [], _ => true
  | _ :: _, [] => false
  | p :: ps, c :: cs => p = c && isPrefixOfChars ps cs

/-- Python `str.replace(pat, rep)`: non-overlapping, left to right.
An empty pattern never occurs in the source's calls; it is returned
unchanged here. -/
def replChars (pat rep : List Char) : List Char → List Char
  | [] => []
  | c :: rest =>
    match pat with
    | [] => c :: rest
    | p :: ps =>
      if isPrefixOfChars (p :: ps) (c :: rest) then
        rep ++ replChars (p :: ps) rep ((c :: rest).drop (p :: ps).length)
      else
        c :: replChars (p :: ps) rep rest
  termination_by l => l.length
  decreasing_by
    · simp [List.length_drop]; omega
    · simp

/-- Python `str.replace`. -/
def pyReplace (s pat rep : String) : String :=
  String.mk (replChars pat.data rep.data s.data)

/-- Python `str.find(c)` for a single character: index of first occurrence,
`none` when absent (Python returns `-1`). -/
def findCharIdx (c : Char) : List Char → Option Nat
  | [] => none
  | x :: xs => if x = c then some 0 else (findCharIdx c xs).map (· + 1)

/-- Python slicing `s[a:b]` on a string (by characters). -/
def sliceStr (s : String) (a b : Nat) : String :=
  String.mk ((s.data.drop a).take (b - a))

/-- Python `sep.join(tokens)`. -/
def joinSep (sep : String) : List String → String
  | [] => ""
  | [x] => x
  | x :: y :: rest => x ++ sep ++ joinSep sep (y :: rest)

/-- Python `str.startswith`. -/
def pyStartsWith (s pre : String) : Bool :=
  isPrefixOfChars pre.data s.data

/-! ### Python numerics -/

/-- Python `round` on exact values: round half to even, to an integer. -/
def pyRound (q : ℚ) : ℤ :=
  if q - (⌊q⌋ : ℚ) < 1/2 then ⌊q⌋
  else if 1/2 < q - (⌊q⌋ : ℚ) then ⌊q⌋ + 1
  else if ⌊q⌋ % 2 = 0 then ⌊q⌋ else ⌊q⌋ + 1

/-- Python `abs` on floats. -/
def pyAbs (q : ℚ) : ℚ := if q < 0 then -q else q

/-- `max(0.0, min(1.0, x))` as used for loudness normalisation. -/
def clamp01 (q : ℚ) : ℚ := max 0 (min 1 q)

/-! ### String literal constants

The markup fragments of `rendering.py`.  Note the source mixes raw-string
escaping levels: `rf"\\c…"` is a *double* backslash in the output while
`rf"{{\fn…"` is a single one; the constants below reproduce each literal
exactly.  Literal braces are written `\x7b` / `\x7d`. -/

def hashStr : String := "#"
def whiteHexStr : String := "#FFFFFF"
def ampHStr : String := "&H"
def ampStr : String := "&"
def bs2cStr : String := "\\\\c"
def bs2out3cStr : String := "\\\\3c"
def bs2shad4cStr : String := "\\\\4c"
def bs2bStr : String := "\\\\b"
def bs2iStr : String := "\\\\i"
def dashStr : String := "-"
def underscoreStr : String := "_"
def boldStr : String := "bold"
def italicStr : String := "italic"
def boldItalicStr : String := "bold_italic"
def zeroStr : String := "0"
def colonStr : String := ":"
def dotStr : String := "."
def bsStr : String := "\\"
def bs2Str : String := "\\\\"
def obStr : String := "\x7b"
def obEscStr : String := "\\\x7b"
def cbStr : String := "\x7d"
def cbEscStr : String := "\\\x7d"
def obFnStr : String := "\x7b\\fn"
def fsStr : String := "\\fs"
def obFspStr : String := "\x7b\\fsp"
def cbHStr : String := "\x7d\\h"
def spaceStr : String := " "
def posOpenStr : String := "\x7b\\pos("
def commaStr : String := ","
def posCloseStr : String := ")\x7d"
def anStr : String := ")\\an"
def nlStr : String := "\\N"
def hiddenTagStr : String := "\x7b\\alpha&HFF&\\3a&HFF&\\4a&HFF&\x7d"
def resetTagStr : String := "\x7b\\alpha&H00&\\3a&H00&\\4a&H00&\x7d"
def closeBraceChar : Char := '\x7d'
def fixedCountModeStr : String := "fixed_count"
def fixedIntervalModeStr : String := "fixed_interval"
def rollingModeStr : String := "rolling"
def perWordModeStr : String := "per_word"

/-! ### Data model (`models.py`, `config.py`, `rendering.py` dataclasses)

Field `end` of the Python dataclasses is spelled `endTime` (`end` is a Lean
keyword).  Fields that only matter to file I/O or the script header
(`audio_path`, `model_name`, `language`, `probability`, `peak` siblings,
`outline`, `shadow`, `play_res_*`, `placements_path`, `colors_path`) are
not part of any claim and are omitted. -/

structure WordTiming where
  index : Int
  text : String
  start : ℚ
  endTime : ℚ
  deriving DecidableEq, Repr

structure Segment where
  index : Int
  start : ℚ
  endTime : ℚ
  text : String
  words : List WordTiming
  deriving DecidableEq, Repr

structure Transcript where
  segments : List Segment
  deriving DecidableEq, Repr

/-- `Transcript.flatten_words`. -/
def Transcript.flatten_words (t : Transcript) : List WordTiming :=
  (t.segments.map Segment.words).flatten

structure WordDynamics where
  word_index : Int
  start : ℚ
  endTime : ℚ
  rms : ℚ
  peak : ℚ
  deriving DecidableEq, Repr

structure FontBand where
  min_size : ℚ
  max_size : ℚ
  font : String
  deriving DecidableEq, Repr

/-- `FontBand.matches`. -/
def FontBand.matches (b : FontBand) (size : ℚ) : Bool :=
  decide (b.min_size ≤ size) && decide (size ≤ b.max_size)

structure SizeMapping where
  min_size : ℚ
  max_size : ℚ
  deriving DecidableEq, Repr

/-- `SizeMapping.clamp`: `min(self.max_size, max(self.min_size, value))`. -/
def SizeMapping.clamp (m : SizeMapping) (value : ℚ) : ℚ :=
  min m.max_size (max m.min_size value)

structure ManualWindow where
  start : ℚ
  endTime : ℚ
  id : Option Int
  word_ids : List Int
  deriving DecidableEq, Repr

structure WriteOnKeyframe where
  time : ℚ
  value : ℚ
  deriving DecidableEq, Repr

structure SegmentStyle where
  id : Option Int
  start : ℚ
  endTime : ℚ
  size_min : Option ℚ := none
  size_max : Option ℚ := none
  letter_spacing : Option ℚ := none
  word_spacing : Option ℚ := none
  line_spacing : Option ℚ := none
  font : Option String := none
  font_style : Option String := none
  font_color : Option String := none
  shadow_color : Option String := none
  write_on : List WriteOnKeyframe := []
  deriving DecidableEq, Repr

structure DisplayConfig where
  mode : String
  words_per_caption : Int
  interval_seconds : ℚ
  rolling_window : Int
  windows : List ManualWindow
  reveal_mode : String
  line_word_limits : List Int
  deriving DecidableEq, Repr

structure RenderConfig where
  size_mapping : SizeMapping
  font_bands : List FontBand
  default_font : String
  font_style : String
  line_spacing : ℚ
  letter_spacing : ℚ
  word_spacing : ℚ
  alignment : Int
  font_color : String
  shadow_color : String
  segment_styles : List SegmentStyle
  display : DisplayConfig
  deriving DecidableEq, Repr

/-- `RenderConfig.choose_font`: first matching font band, else the default. -/
def RenderConfig.choose_font (config : RenderConfig) (size : ℚ) : String :=
  match config.font_bands.find? (fun b => b.matches size) with
  | some b => b.font
  | none => config.default_font

structure CaptionLine where
  start : ℚ
  endTime : ℚ
  words : List WordTiming
  segment_id : Option Int := none
  deriving DecidableEq, Repr

structure DialogueEntry where
  start : ℚ
  endTime : ℚ
  text : String
  deriving DecidableEq, Repr

/-- `Placement`: `endTime = none` models `end = float("inf")`. -/
structure Placement where
  endTime : Option ℚ
  x : Int
  y : Int
  segment_id : Option Int := none
  deriving DecidableEq, Repr

structure WordRender where
  markup : String
  size : ℚ
  deriving DecidableEq, Repr

structure SegmentColor where
  start : ℚ
  endTime : ℚ
  color : String
  shadow : String
  deriving DecidableEq, Repr

/-- Python dict `word_infos` (maps `word.index` to a `WordRender`). -/
abbrev WordInfos := Int → Option WordRender

/-! ### Color and tag helpers (`rendering.py` lines 19–70) -/

/-- `_normalize_hex_color`. -/
def _normalize_hex_color (value fallback : String) : String :=
  let candidate0 := if value = "" then "" else pyStrip value
  let candidate1 := if candidate0 = "" then fallback else candidate0
  let candidate := if pyStartsWith candidate1 hashStr then candidate1 else hashStr ++ candidate1
  if candidate.length ≠ 7 then pyUpper fallback
  else
    let hex_part := sliceStr candidate 1 7
    if hex_part.data.all isHexDigitChar then hashStr ++ pyUpper hex_part
    else pyUpper fallback

/-- `_hex_to_ass_bgr`. -/
def _hex_to_ass_bgr (color : String) : String :=
  let normalized := _normalize_hex_color color whiteHexStr
  let r := sliceStr normalized 1 3
  let g := sliceStr normalized 3 5
  let b := sliceStr normalized 5 7
  ampHStr ++ b ++ g ++ r ++ ampStr

/-- `_ass_primary_tag` (`rf"\\c…"`: two literal backslashes). -/
def _ass_primary_tag (color : String) : String := bs2cStr ++ _hex_to_ass_bgr color

/-- `_ass_outline_tag`. -/
def _ass_outline_tag (color : String) : String := bs2out3cStr ++ _hex_to_ass_bgr color

/-- `_ass_shadow_tag`. -/
def _ass_shadow_tag (color : String) : String := bs2shad4cStr ++ _hex_to_ass_bgr color

/-- `_ass_font_style_flags` (`(font_style or "")` is the identity on the
empty string through strip/lower/replace). -/
def _ass_font_style_flags (font_style : String) : Int × Int :=
  let style := pyReplace (pyLower (pyStrip font_style)) dashStr underscoreStr
  let bold : Int := if style = boldStr ∨ style = boldItalicStr then -1 else 0
  let italic : Int := if style = italicStr ∨ style = boldItalicStr then -1 else 0
  (bold, italic)

/-- `_ass_font_style_tags`. -/
def _ass_font_style_tags (font_style : String) : String :=
  let flags := _ass_font_style_flags font_style
  let bold_tag : Nat := if flags.1 ≠ 0 then 1 else 0
  let italic_tag : Nat := if flags.2 ≠ 0 then 1 else 0
  bs2bStr ++ toString bold_tag ++ bs2iStr ++ toString italic_tag

/-! ### Timestamp formatting (`_format_timestamp`, lines 73–81) -/

/-- Python `f"{n:02d}"` for the bounded minute/second/centisecond fields. -/
def pad2 (n : Nat) : String := if n < 10 then zeroStr ++ toString n else toString n

/-- `_format_timestamp`. -/
def _format_timestamp (seconds : ℚ) : String :=
  let centiseconds : Nat := (max 0 (pyRound (seconds * 100))).toNat
  let cs := centiseconds % 100
  let total_seconds := centiseconds / 100
  let s := total_seconds % 60
  let total_minutes := total_seconds / 60
  let m := total_minutes % 60
  let h := total_minutes / 60
  toString h ++ colonStr ++ pad2 m ++ colonStr ++ pad2 s ++ dotStr ++ pad2 cs

/-- The clamped centisecond total of `_format_timestamp`:
`max(0, int(round(seconds * 100)))`. -/
def timestampCentis (seconds : ℚ) : Nat := (max 0 (pyRound (seconds * 100))).toNat

/-- `_escape_ass_text`: three sequential replaces. -/
def _escape_ass_text (text : String) : String :=
  pyReplace (pyReplace (pyReplace text bsStr bs2Str) obStr obEscStr) cbStr cbEscStr

/-! ### Per-word style resolution (`_word_markup`, lines 88–111) -/

/-- Lines 101–105 of `_word_markup`: loudness normalisation with the
flat-range fallback of exactly `0.5`, then clamped into `[0, 1]`. -/
def normalizedLoudness (rms rms_min rms_max : ℚ) : ℚ :=
  clamp01 (if rms_max ≤ rms_min then 1/2 else (rms - rms_min) / (rms_max - rms_min))

/-- Lines 107–108 of `_word_markup`: the resolved font size
`size_mapping.clamp(min_size + normalized * (max_size - min_size))`. -/
def resolvedWordSize (rms : ℚ) (size_mapping : SizeMapping) (rms_min rms_max : ℚ) : ℚ :=
  size_mapping.clamp
    (size_mapping.min_size +
      normalizedLoudness rms rms_min rms_max * (size_mapping.max_size - size_mapping.min_size))

/-- `font_override or …`: Python truthiness also rejects the empty string. -/
def resolveFontOr (font_override : Option String) (alt : String) : String :=
  match font_override with
  | some f => if f = "" then alt else f
  | none => alt

/-- `_word_markup`: the size computation is `resolvedWordSize` above. -/
def _word_markup (word : WordTiming) (dynamics : WordDynamics) (config : RenderConfig)
    (size_mapping : SizeMapping) (rms_min rms_max : ℚ)
    (primary_tag outline_tag shadow_tag style_tag : String)
    (font_override : Option String) : String :=
  let size := resolvedWordSize dynamics.rms size_mapping rms_min rms_max
  let font := resolveFontOr font_override (config.choose_font size)
  let escaped_text := _escape_ass_text word.text
  obFnStr ++ font ++ fsStr ++ toString (pyRound size) ++ style_tag ++ primary_tag ++
    outline_tag ++ shadow_tag ++ cbStr ++ escaped_text

/-- `_fallback_markup` (lines 971–984): minimum size of the active range. -/
def _fallback_markup (word : WordTiming) (config : RenderConfig) (size_mapping : SizeMapping)
    (primary_tag outline_tag shadow_tag style_tag : String)
    (font_override : Option String) : String :=
  let escaped_text := _escape_ass_text word.text
  let size := pyRound size_mapping.min_size
  let font := resolveFontOr font_override config.default_font
  obFnStr ++ font ++ fsStr ++ toString size ++ style_tag ++ primary_tag ++
    outline_tag ++ shadow_tag ++ cbStr ++ escaped_text

/-- Digits of a `\d+` regex group as a number. -/
def digitsToNat (l : List Char) : Nat :=
  l.foldl (fun acc c => acc * 10 + (c.toNat - Char.toNat '0')) 0

/-- `re.search` of `_FS_PATTERN = r"\\fs(\d+)"`: first occurrence of a
backslash followed by `fs` and at least one digit; returns the digit group. -/
def fsScan : List Char → Option Nat
  | [] => none
  | c :: rest =>
    if c = '\\' then
      match rest with
      | 'f' :: 's' :: rest2 =>
        let digits := rest2.takeWhile Char.isDigit
        if digits.isEmpty then fsScan rest else some (digitsToNat digits)
      | _ => fsScan rest
    else fsScan rest

/-- `_extract_size_from_markup` (the `float(...)` of a digit group never
raises, so the `try` is the identity). -/
def _extract_size_from_markup (markup : String) (size_mapping : SizeMapping) : ℚ :=
  match fsScan markup.data with
  | some n => (n : ℚ)
  | none => size_mapping.min_size

/-! ### Separators and wrapping (`rendering.py` lines 162–268) -/

/-- `_letter_spacing_tag`. -/
def _letter_spacing_tag (letter_spacing : ℚ) : String :=
  if pyAbs letter_spacing < 1/100 then ""
  else obFspStr ++ toString (pyRound letter_spacing) ++ cbStr

/-- `_word_separator`. -/
def _word_separator (letter_spacing word_spacing : ℚ) : String :=
  if word_spacing ≤ 0 then spaceStr
  else
    let combined := letter_spacing + word_spacing
    let pre := obFspStr ++ toString (pyRound combined) ++ cbHStr
    let reset :=
      if 1/100 < pyAbs (combined - letter_spacing) then
        obFspStr ++ toString (pyRound letter_spacing) ++ cbStr
      else ""
    pre ++ reset

/-- `_replace_markup_text`. -/
def _replace_markup_text (markup text : String) : String :=
  if markup = "" then _escape_ass_text text
  else
    let escaped := _escape_ass_text text
    match findCharIdx closeBraceChar markup.data with
    | none => escaped
    | some idx => sliceStr markup 0 (idx + 1) ++ escaped

/-- `_apply_partial_reveal` (the `visible_count` reaching this embedding is
the positive `remaining` of the write-on loop, hence a `Nat`; the final
`prefix`/no-`prefix` branches of the source concatenate to the same string
and are collapsed). -/
def _apply_partial_reveal (markup full_text : String) (visible_count : Nat) : String :=
  if visible_count = 0 then ""
  else if full_text.length ≤ visible_count then _replace_markup_text markup full_text
  else
    let visible := _escape_ass_text (String.mk (full_text.data.take visible_count))
    let hidden := _escape_ass_text (String.mk (full_text.data.drop visible_count))
    let pre :=
      match findCharIdx closeBraceChar markup.data with
      | some idx => sliceStr markup 0 (idx + 1)
      | none => ""
    if hidden = "" then pre ++ visible
    else pre ++ visible ++ hiddenTagStr ++ hidden ++ resetTagStr

/-- `info.size if info else 0.0` for the layout loop. -/
def layoutWordSize (word_infos : WordInfos) (word : WordTiming) : ℚ :=
  match word_infos word.index with
  | some info => info.size
  | none => 0

/-- `exceeds_size = current_line and size > current_max` (line 248). -/
def layoutExceedsSize (current_line : List WordTiming) (current_max size : ℚ) : Bool :=
  !current_line.isEmpty && decide (current_max < size)

/-- `exceeds_count` (line 249). -/
def layoutExceedsCount (current_line : List WordTiming) (current_limit : Option Int) : Bool :=
  !current_line.isEmpty &&
    (match current_limit with
      | some l => decide (l ≤ (current_line.length : Int))
      | none => false)

/-- The loop state step of `_layout_words_by_size`: `current_line`,
`current_max`, `limit_index`, `current_limit` are the Python locals.
`max current_max size` is the conditional update `if size > current_max`. -/
def layoutAux (word_infos : WordInfos) (line_limits : List Int)
    (current_line : List WordTiming) (current_max : ℚ)
    (limit_index : Nat) (current_limit : Option Int) :
    List WordTiming → List (List WordTiming)
  | [] => if current_line.isEmpty then [] else [current_line]
  | word :: rest =>
    let size := layoutWordSize word_infos word
    if current_line.isEmpty ||
        (!layoutExceedsSize current_line current_max size &&
          !layoutExceedsCount current_line current_limit) then
      layoutAux word_infos line_limits (current_line ++ [word]) (max current_max size)
        limit_index current_limit rest
    else
      match line_limits.get? (limit_index + 1) with
      | some l =>
        current_line :: layoutAux word_infos line_limits [word] size (limit_index + 1) (some l) rest
      | none =>
        current_line :: layoutAux word_infos line_limits [word] size limit_index none rest

/-- `_layout_words_by_size`. -/
def _layout_words_by_size (words : List WordTiming) (word_infos : WordInfos)
    (line_limits : List Int) : List (List WordTiming) :=
  layoutAux word_infos line_limits [] 0 0 (line_limits.get? 0) words

/-- The `max_height` loop of `_render_lines` (words without info keep the
running maximum, initial `0.0`). -/
def maxSizeOfLine (line_words : List WordTiming) (word_infos : WordInfos) : ℚ :=
  line_words.foldl
    (fun mh word =>
      match word_infos word.index with
      | some info => if mh < info.size then info.size else mh
      | none => mh) 0

/-- The per-sub-line loop of `_render_lines`: sub-lines whose `tokens` list
is empty are dropped (with their height). -/
def renderLinesAux (word_infos : WordInfos) (spacing_tag separator : String) :
    List (List WordTiming) → List String × List ℚ
  | [] => ([], [])
  | line_words :: rest =>
    let tokens := line_words.filterMap (fun word => (word_infos word.index).map WordRender.markup)
    let prev := renderLinesAux word_infos spacing_tag separator rest
    if tokens.isEmpty then prev
    else
      ((if spacing_tag = "" then joinSep separator tokens
        else spacing_tag ++ joinSep separator tokens) :: prev.1,
        maxSizeOfLine line_words word_infos :: prev.2)

/-- `_render_lines`. -/
def _render_lines (words : List WordTiming) (word_infos : WordInfos)
    (line_limits : List Int) (letter_spacing word_spacing : ℚ) :
    List String × List ℚ :=
  renderLinesAux word_infos (_letter_spacing_tag letter_spacing)
    (_word_separator letter_spacing word_spacing)
    (_layout_words_by_size words word_infos line_limits)

/-! ### Placement and color lookup (`rendering.py` lines 997–1174) -/

/-- `time_point ≤ placement.end` with `end = +∞` encoded as `none`. -/
def placementLE (time_point : ℚ) : Option ℚ → Bool
  | none => true
  | some e => decide (time_point ≤ e)

/-- `_placement_for_time`: first entry with `end ≥ time_point`, else
`placements[-1]` — which raises `IndexError` on an empty list, modelled by
`none`. -/
def _placement_for_time (placements : List Placement) (time_point : ℚ) : Option Placement :=
  match placements.find? (fun p => placementLE time_point p.endTime) with
  | some p => some p
  | none => placements.getLast?

/-- `_placement_for_line`: the segment-keyed pool takes priority for lines
with a non-null `segment_id`. -/
def _placement_for_line (line_data : CaptionLine) (placements : List Placement)
    (placements_by_segment : Int → Option Placement) (time_point : ℚ) : Option Placement :=
  match line_data.segment_id with
  | some sid =>
    match placements_by_segment sid with
    | some p => some p
    | none => _placement_for_time placements time_point
  | none => _placement_for_time placements time_point

/-- `_apply_position`. -/
def _apply_position (text : String) (placement : Placement) : String :=
  if text = "" then text
  else posOpenStr ++ toString placement.x ++ commaStr ++ toString placement.y ++
    posCloseStr ++ text

/-- `_color_for_time`: closed-interval containment scan. -/
def _color_for_time (overrides : List SegmentColor) (timestamp : ℚ)
    (default_color default_shadow : String) : String × String :=
  match overrides.find? (fun entry =>
      decide (entry.start ≤ timestamp) && decide (timestamp ≤ entry.endTime)) with
  | some entry => (entry.color, entry.shadow)
  | none =>
    (_normalize_hex_color default_color default_color,
     _normalize_hex_color default_shadow default_shadow)

/-! ### Segment styles (`_segment_style_for_line`, `_effective_size_mapping`) -/

/-- The dict comprehension `{style.id: style for style in segment_styles if
style.id is not None}`: later entries with the same id win. -/
def stylesById (segment_styles : List SegmentStyle) : Int → Option SegmentStyle :=
  fun sid => (segment_styles.filter (fun style => decide (style.id = some sid))).getLast?

/-- `_segment_style_for_line`: exact id lookup for id-tagged lines (no
time-overlap fallback), first time-overlapping style otherwise. -/
def _segment_style_for_line (line_data : CaptionLine)
    (styles_by_id : Int → Option SegmentStyle) (styles : List SegmentStyle) :
    Option SegmentStyle :=
  match line_data.segment_id with
  | some sid => styles_by_id sid
  | none =>
    styles.find? (fun style =>
      decide (style.start ≤ line_data.endTime) && decide (line_data.start ≤ style.endTime))

/-- `_effective_size_mapping`: override bounds with the min/max swap. -/
def _effective_size_mapping (base : SizeMapping) (style : Option SegmentStyle) : SizeMapping :=
  match style with
  | none => base
  | some st =>
    let min_size := match st.size_min with | some v => v | none => base.min_size
    let max_size := match st.size_max with | some v => v | none => base.max_size
    if max_size < min_size then ⟨max_size, min_size⟩ else ⟨min_size, max_size⟩

/-! ### Per-line markup computation (`_compute_line_markups`, lines 883–968) -/

/-- The loudness range actually passed to `_word_markup`: line-local
min/max of the matched words when `local_max > local_min`, else the global
pair.  (The source's `use_local` if/else passes exactly these arguments.) -/
def lineRmsRange (line_data : CaptionLine) (dynamics_map : Int → Option WordDynamics)
    (global_min global_max : ℚ) : ℚ × ℚ :=
  let values := line_data.words.filterMap (fun word => (dynamics_map word.index).map WordDynamics.rms)
  match values with
  | [] => (global_min, global_max)
  | v :: vs =>
    let local_min := vs.foldl min v
    let local_max := vs.foldl max v
    if local_min < local_max then (local_min, local_max) else (global_min, global_max)

/-- Python truthiness choice `b if a and b else c` for optional strings. -/
def strFieldOr (field : Option String) (alt : String) : String :=
  match field with
  | some s => if s = "" then alt else s
  | none => alt

/-- `_compute_line_markups`: builds the `word_infos` dict (iterated update,
later words with the same index win). -/
def _compute_line_markups (line_data : CaptionLine) (dynamics_map : Int → Option WordDynamics)
    (config : RenderConfig) (size_mapping : SizeMapping) (global_min global_max : ℚ)
    (color_overrides : List SegmentColor) (default_color default_shadow : String)
    (segment_style : Option SegmentStyle) : WordInfos :=
  let font_override : Option String :=
    match segment_style with
    | some st =>
      match st.font with
      | some f => if f = "" then none else some f
      | none => none
    | none => none
  let effective_font_style :=
    match segment_style with
    | some st => strFieldOr st.font_style config.font_style
    | none => config.font_style
  let style_tag := _ass_font_style_tags effective_font_style
  let rng := lineRmsRange line_data dynamics_map global_min global_max
  line_data.words.foldl
    (fun acc word =>
      let base_colors := _color_for_time color_overrides word.start default_color default_shadow
      let primary_hex :=
        match segment_style with
        | some st => strFieldOr st.font_color base_colors.1
        | none => base_colors.1
      let shadow_hex :=
        match segment_style with
        | some st => strFieldOr st.shadow_color base_colors.2
        | none => base_colors.2
      let primary_tag := _ass_primary_tag primary_hex
      let outline_tag := _ass_outline_tag shadow_hex
      let shadow_tag := _ass_shadow_tag shadow_hex
      let info :=
        match dynamics_map word.index with
        | some dynamics =>
          let markup := _word_markup word dynamics config size_mapping rng.1 rng.2
            primary_tag outline_tag shadow_tag style_tag font_override
          WordRender.mk markup (_extract_size_from_markup markup size_mapping)
        | none =>
          let markup := _fallback_markup word config size_mapping
            primary_tag outline_tag shadow_tag style_tag font_override
          WordRender.mk markup (_extract_size_from_markup markup size_mapping)
      fun i => if i = word.index then some info else acc i)
    (fun _ => none)

/-! ### Line grouping (`rendering.py` lines 378–482) -/

/-- `_group_by_segment`: empty-word segments are skipped. -/
def _group_by_segment (transcript : Transcript) : List CaptionLine :=
  transcript.segments.filterMap (fun segment =>
    if segment.words.isEmpty then none
    else some (CaptionLine.mk segment.start segment.endTime segment.words (some segment.index)))

/-- The `range(0, len(words), batch_size)` loop of `_group_fixed_count`.
A zero step cannot reach this point (`batch_size` has been forced ≥ 1). -/
def groupFixedCountAux : Nat → List WordTiming → List CaptionLine
  | _, [] => []
  | 0, _ :: _ => []
  | b + 1, word :: rest =>
    let chunk := (word :: rest).take (b + 1)
    CaptionLine.mk word.start (chunk.getLastD word).endTime chunk none
      :: groupFixedCountAux (b + 1) (rest.drop b)
  termination_by _ l => l.length
  decreasing_by simp [List.length_drop]; omega

/-- `_group_fixed_count` (`batch_size <= 0` defaults to 6). -/
def _group_fixed_count (words : List WordTiming) (batch_size : Int) : List CaptionLine :=
  let batch : Int := if batch_size ≤ 0 then 6 else batch_size
  groupFixedCountAux batch.toNat words

/-- `lines.append(CaptionLine(chunk[0].start, chunk[-1].end, chunk))` when
`chunk` is nonempty. -/
def flushChunk (chunk : List WordTiming) : List CaptionLine :=
  match chunk with
  | [] => []
  | c :: _ => [CaptionLine.mk c.start (chunk.getLastD c).endTime chunk none]

/-- The word loop of `_group_fixed_interval`. -/
def groupFixedIntervalAux (interval : ℚ) (chunk : List WordTiming) (window_end : ℚ) :
    List WordTiming → List CaptionLine
  | [] => flushChunk chunk
  | word :: rest =>
    if word.start < window_end then
      groupFixedIntervalAux interval (chunk ++ [word]) window_end rest
    else
      flushChunk chunk ++ groupFixedIntervalAux interval [word] (word.start + interval) rest

/-- `_group_fixed_interval` (interval clamped to ≥ 0.1). -/
def _group_fixed_interval (words : List WordTiming) (interval : ℚ) : List CaptionLine :=
  match words with
  | [] => []
  | w :: _ => groupFixedIntervalAux (max interval (1/10)) [] (w.start + max interval (1/10)) words

/-- The enumerate loop of `_group_rolling`; `seen` is the already-consumed
elements, so `seen ++ [word]` is `words[: idx + 1]`. -/
def groupRollingAux (window_size : Nat) (seen : List WordTiming) :
    List WordTiming → List CaptionLine
  | [] => []
  | word :: rest =>
    let upto := seen ++ [word]
    let chunk := upto.drop (upto.length - window_size)
    let end_time := match rest with
      | next :: _ => max word.start next.start
      | [] => word.endTime
    CaptionLine.mk word.start end_time chunk none :: groupRollingAux window_size upto rest

/-- `_group_rolling` (window clamped to ≥ 1). -/
def _group_rolling (words : List WordTiming) (window_size : Int) : List CaptionLine :=
  if words.isEmpty then []
  else groupRollingAux (max window_size 1).toNat [] words

/-- The dict `word_lookup = {word.index: word for word in words}` (later
duplicates win). -/
def wordLookup (words : List WordTiming) : Int → Option WordTiming :=
  fun i => (words.filter (fun word => decide (word.index = i))).getLast?

/-- The window loop of `_group_manual_windows`.  `cursor` is the shared
forward iterator state (`current_word` and the unexhausted tail): the two
`while` loops are the dropWhile/takeWhile pair, and a `word_ids` window
leaves `cursor` untouched. -/
def _group_manual_windows_aux (lookup : Int → Option WordTiming) :
    List WordTiming → List ManualWindow → List CaptionLine
  | _, [] => []
  | cursor, window :: rest =>
    if window.word_ids.isEmpty then
      let cursor1 := cursor.dropWhile (fun word => decide (word.endTime ≤ window.start))
      let chunk := cursor1.takeWhile (fun word => decide (word.start < window.endTime))
      let cursor2 := cursor1.dropWhile (fun word => decide (word.start < window.endTime))
      (if chunk.isEmpty then []
        else [CaptionLine.mk window.start window.endTime chunk window.id]) ++
        _group_manual_windows_aux lookup cursor2 rest
    else
      let chunk := window.word_ids.filterMap lookup
      (if chunk.isEmpty then []
        else [CaptionLine.mk window.start window.endTime chunk window.id]) ++
        _group_manual_windows_aux lookup cursor rest

/-- `_group_manual_windows`. -/
def _group_manual_windows (words : List WordTiming) (windows : List ManualWindow) :
    List CaptionLine :=
  _group_manual_windows_aux (wordLookup words) words windows

/-- `_build_caption_lines`: manual windows take priority, then the mode
dispatch, defaulting to segment grouping. -/
def _build_caption_lines (transcript : Transcript) (display : DisplayConfig) :
    List CaptionLine :=
  let words := transcript.flatten_words
  if !display.windows.isEmpty then _group_manual_windows words display.windows
  else if display.mode = fixedCountModeStr then _group_fixed_count words display.words_per_caption
  else if display.mode = fixedIntervalModeStr then _group_fixed_interval words display.interval_seconds
  else if display.mode = rollingModeStr then _group_rolling words display.rolling_window
  else _group_by_segment transcript

/-! ### Multi-sub-line vertical stacking (`rendering.py` lines 511–553) -/

/-- `_line_alignment_tag`. -/
def _line_alignment_tag (alignment : Int) : Int :=
  if alignment = 1 ∨ alignment = 4 ∨ alignment = 7 then 7
  else if alignment = 2 ∨ alignment = 5 ∨ alignment = 8 then 8
  else if alignment = 3 ∨ alignment = 6 ∨ alignment = 9 then 9
  else 7

/-- `_block_top`. -/
def _block_top (alignment : Int) (anchor_y total_height : ℚ) : ℚ :=
  if alignment = 7 ∨ alignment = 8 ∨ alignment = 9 then anchor_y
  else if alignment = 4 ∨ alignment = 5 ∨ alignment = 6 then anchor_y - total_height / 2
  else anchor_y - total_height

/-- `max(line_heights)` (called on a nonempty list). -/
def maxListD (l : List ℚ) (d : ℚ) : ℚ :=
  match l with
  | [] => d
  | x :: xs => xs.foldl max x

/-- The zip loop of `_build_line_entries`, accumulating `y_offset`
(`pos_x = int(round(placement.x))` is the identity on an `int`). -/
def buildLineEntriesAux (pos_x line_alignment : Int) (start endT line_spacing : ℚ) :
    List (String × ℚ) → ℚ → List DialogueEntry
  | [], _ => []
  | (text, height) :: rest, y_offset =>
    let pos_y := pyRound y_offset
    DialogueEntry.mk start endT
        (posOpenStr ++ toString pos_x ++ commaStr ++ toString pos_y ++ anStr ++
          toString line_alignment ++ cbStr ++ text)
      :: buildLineEntriesAux pos_x line_alignment start endT line_spacing rest
          (y_offset + height + line_spacing)

/-- `_build_line_entries`. -/
def _build_line_entries (rendered_lines : List String) (line_heights : List ℚ)
    (placement : Placement) (start endT : ℚ) (alignment : Int) (line_spacing : ℚ) :
    List DialogueEntry :=
  if rendered_lines.isEmpty then []
  else
    let heights :=
      if line_heights.length ≠ rendered_lines.length then
        List.replicate rendered_lines.length (maxListD line_heights 0)
      else line_heights
    let total_height := heights.sum + line_spacing * ((rendered_lines.length - 1 : Nat) : ℚ)
    let top := _block_top alignment (placement.y : ℚ) total_height
    buildLineEntriesAux placement.x (_line_alignment_tag alignment) start endT line_spacing
      (rendered_lines.zip heights) top

/-! ### Write-on reveal (`rendering.py` lines 655–811) -/

/-- Stable insertion of a keyframe into a time-sorted list (earlier list
elements stay before equal-time later ones, as with Python's stable sort). -/
def insertFrameSorted (frame : WriteOnKeyframe) : List WriteOnKeyframe → List WriteOnKeyframe
  | [] => [frame]
  | f :: fs =>
    if frame.time ≤ f.time then frame :: f :: fs
    else f :: insertFrameSorted frame fs

/-- `cleaned.sort(key=lambda frame: frame.time)` (stable). -/
def sortFramesByTime (frames : List WriteOnKeyframe) : List WriteOnKeyframe :=
  frames.foldr insertFrameSorted []

/-- The merge loop of `_normalize_write_on_keyframes`: a frame within 1ms of
the previous one replaces it. -/
def mergeCloseFramesAux (last : WriteOnKeyframe) : List WriteOnKeyframe → List WriteOnKeyframe
  | [] => [last]
  | f :: fs =>
    if pyAbs (last.time - f.time) < 1/1000 then mergeCloseFramesAux f fs
    else last :: mergeCloseFramesAux f fs

def mergeCloseFrames : List WriteOnKeyframe → List WriteOnKeyframe
  | [] => []
  | f :: fs => mergeCloseFramesAux f fs

/-- The monotonization loop: each effective value is the running maximum. -/
def monotonizeFramesAux (last_value : ℚ) : List WriteOnKeyframe → List WriteOnKeyframe
  | [] => []
  | f :: fs =>
    let v := max f.value last_value
    WriteOnKeyframe.mk f.time v :: monotonizeFramesAux v fs

/-- `_normalize_write_on_keyframes`: clamp into `[start, end]` and `[0,1]`,
stable-sort by time, 1ms-deduplicate keeping the later frame, monotonize. -/
def _normalize_write_on_keyframes (keyframes : List WriteOnKeyframe) (start endT : ℚ) :
    List WriteOnKeyframe :=
  let cleaned := keyframes.map (fun frame =>
    WriteOnKeyframe.mk (min (max frame.time start) endT) (clamp01 frame.value))
  monotonizeFramesAux 0 (mergeCloseFrames (sortFramesByTime cleaned))

/-- The adjacent-pair scan of `_write_on_time_for_progress`. -/
def writeOnPairsScan (progress : ℚ) : List WriteOnKeyframe → Option ℚ
  | current :: next :: rest =>
    if current.value ≤ progress ∧ progress ≤ next.value then
      let span := next.time - current.time
      if span ≤ 0 ∨ pyAbs (next.value - current.value) < 1/10000 then some next.time
      else some (current.time + (progress - current.value) / (next.value - current.value) * span)
    else writeOnPairsScan progress (next :: rest)
  | _ => none

/-- `_write_on_time_for_progress`. -/
def _write_on_time_for_progress (keyframes : List WriteOnKeyframe) (start progress : ℚ) :
    Option ℚ :=
  match keyframes with
  | [] => none
  | first :: _ =>
    if progress ≤ first.value then some start
    else
      match writeOnPairsScan progress keyframes with
      | some t => some t
      | none =>
        match keyframes.getLast? with
        | some last => if progress ≤ last.value then some last.time else none
        | none => none

/-- The reveal-time loop of `_dialogues_write_on` (`epsilon = 0.0001`),
breaking at the first character count with no reveal time; `fuel`
counts the remaining iterations of `range(total_chars)`. -/
def revealTimesAux (normalized : List WriteOnKeyframe) (line_start : ℚ) (total_chars : Nat) :
    Nat → Nat → List (ℚ × Nat)
  | _, 0 => []
  | idx, fuel + 1 =>
    match _write_on_time_for_progress normalized line_start
        (((idx : ℚ) + 1/10000) / (total_chars : ℚ)) with
    | none => []
    | some t => (t, idx + 1) :: revealTimesAux normalized line_start total_chars (idx + 1) fuel

/-- The event merge loop: events within 1ms collapse onto the later time
with the maximum count. -/
def mergeRevealEventsAux (last : ℚ × Nat) : List (ℚ × Nat) → List (ℚ × Nat)
  | [] => [last]
  | (t, c) :: rest =>
    if pyAbs (last.1 - t) < 1/1000 then mergeRevealEventsAux (t, max last.2 c) rest
    else last :: mergeRevealEventsAux (t, c) rest

def mergeRevealEvents : List (ℚ × Nat) → List (ℚ × Nat)
  | [] => []
  | e :: es => mergeRevealEventsAux e es

/-- The `visible_words` / `partial_override` loop of `_dialogues_write_on`. -/
def collectVisibleWords : List WordTiming → Nat → List WordTiming × Option (Int × String × Nat)
  | _, 0 => ([], none)
  | [], _ + 1 => ([], none)
  | word :: rest, r + 1 =>
    if word.text.length ≤ r + 1 then
      let next := collectVisibleWords rest (r + 1 - word.text.length)
      (word :: next.1, next.2)
    else ([word], some (word.index, word.text, r + 1))

/-- `end_time = line_data.end`, capped by the next event's time (lines
749–751). -/
def writeOnEventEnd (line_data : CaptionLine) : List (ℚ × Nat) → ℚ
  | (t2, _) :: _ => min line_data.endTime t2
  | [] => line_data.endTime

/-- The `active_word_infos` dict override for a partially revealed word
(lines 773–781). -/
def writeOnActiveInfos (word_infos : WordInfos)
    (partial_override : Option (Int × String × Nat)) : WordInfos :=
  match partial_override with
  | some (widx, wtext, remaining) =>
    match word_infos widx with
    | some info =>
      fun i => if i = widx then
          some (WordRender.mk (_apply_partial_reveal info.markup wtext remaining) info.size)
        else word_infos i
    | none => word_infos
  | none => word_infos

/-- The per-event loop of `_dialogues_write_on`; `none` propagates the
`IndexError` of an empty placement list. -/
def writeOnEventsAux (line_data : CaptionLine) (word_infos : WordInfos)
    (line_limits : List Int) (placements : List Placement)
    (placements_by_segment : Int → Option Placement)
    (letter_spacing word_spacing line_spacing : ℚ) (alignment : Int) :
    List (ℚ × Nat) → Option (List DialogueEntry)
  | [] => some []
  | (start_time, count) :: rest =>
    let end_time := writeOnEventEnd line_data rest
    if end_time ≤ start_time then
      writeOnEventsAux line_data word_infos line_limits placements placements_by_segment
        letter_spacing word_spacing line_spacing alignment rest
    else
      let collected := collectVisibleWords line_data.words count
      if collected.1.isEmpty then
        writeOnEventsAux line_data word_infos line_limits placements placements_by_segment
          letter_spacing word_spacing line_spacing alignment rest
      else
        let active_word_infos := writeOnActiveInfos word_infos collected.2
        let rendered := _render_lines collected.1 active_word_infos line_limits
          letter_spacing word_spacing
        if rendered.1.isEmpty then
          writeOnEventsAux line_data word_infos line_limits placements placements_by_segment
            letter_spacing word_spacing line_spacing alignment rest
        else
          match _placement_for_line line_data placements placements_by_segment start_time with
          | none => none
          | some placement =>
            let start := max line_data.start start_time
            let endv := max (start + 1/100) end_time
            let new_entries :=
              if 0 < line_spacing ∧ 1 < rendered.1.length then
                _build_line_entries rendered.1 rendered.2 placement start endv alignment line_spacing
              else
                [DialogueEntry.mk start endv (_apply_position (joinSep nlStr rendered.1) placement)]
            match writeOnEventsAux line_data word_infos line_limits placements
                placements_by_segment letter_spacing word_spacing line_spacing alignment rest with
            | some more => some (new_entries ++ more)
            | none => none

/-- `_dialogues_write_on`. -/
def _dialogues_write_on (line_data : CaptionLine) (word_infos : WordInfos)
    (line_limits : List Int) (placements : List Placement)
    (placements_by_segment : Int → Option Placement)
    (letter_spacing word_spacing line_spacing : ℚ) (alignment : Int)
    (keyframes : List WriteOnKeyframe) : Option (List DialogueEntry) :=
  if line_data.words.isEmpty then some []
  else
    let normalized := _normalize_write_on_keyframes keyframes line_data.start line_data.endTime
    if normalized.isEmpty then some []
    else
      let total_chars := (line_data.words.map (fun word => word.text.length)).sum
      if total_chars = 0 then some []
      else
        let reveal_times := revealTimesAux normalized line_data.start total_chars 0 total_chars
        if reveal_times.isEmpty then some []
        else
          writeOnEventsAux line_data word_infos line_limits placements placements_by_segment
            letter_spacing word_spacing line_spacing alignment (mergeRevealEvents reveal_times)

/-! ### Per-word reveal (`_dialogues_per_word`, lines 814–880) -/

/-- Lines 839–842: the cumulative buffer resets when the resolved position
changes (including the initial `last_position = None`). -/
def perWordVisible (visible_words : List WordTiming) (last_position : Option (Int × Int))
    (current_position : Int × Int) (word : WordTiming) : List WordTiming :=
  if last_position = some current_position then visible_words ++ [word] else [word]

/-- Lines 854–860: the end candidate of a per-word entry. -/
def perWordEndCandidate (line_data : CaptionLine) (word : WordTiming) :
    List WordTiming → ℚ
  | next :: _ => min line_data.endTime (max next.start word.endTime)
  | [] => max line_data.endTime word.endTime

/-- The word loop of `_dialogues_per_word`: `visible_words` resets when the
resolved position changes, `last_position` is only advanced after a word
that produced rendered lines (the `continue` skips the update). -/
def perWordAux (line_data : CaptionLine) (word_infos : WordInfos) (line_limits : List Int)
    (placements : List Placement) (placements_by_segment : Int → Option Placement)
    (letter_spacing word_spacing line_spacing : ℚ) (alignment : Int) :
    List WordTiming → Option (Int × Int) → List WordTiming → Option (List DialogueEntry)
  | _, _, [] => some []
  | visible_words, last_position, word :: rest =>
    match _placement_for_line line_data placements placements_by_segment
        (max line_data.start word.start) with
    | none => none
    | some placement =>
      let current_position := (placement.x, placement.y)
      let visible := perWordVisible visible_words last_position current_position word
      let rendered := _render_lines visible word_infos line_limits letter_spacing word_spacing
      if rendered.1.isEmpty then
        perWordAux line_data word_infos line_limits placements placements_by_segment
          letter_spacing word_spacing line_spacing alignment visible last_position rest
      else
        let start := max line_data.start word.start
        let endv := max (start + 1/100) (perWordEndCandidate line_data word rest)
        let new_entries :=
          if 0 < line_spacing ∧ 1 < rendered.1.length then
            _build_line_entries rendered.1 rendered.2 placement start endv alignment line_spacing
          else
            [DialogueEntry.mk start endv (_apply_position (joinSep nlStr rendered.1) placement)]
        match perWordAux line_data word_infos line_limits placements placements_by_segment
            letter_spacing word_spacing line_spacing alignment visible
            (some current_position) rest with
        | some more => some (new_entries ++ more)
        | none => none

/-- `_dialogues_per_word`. -/
def _dialogues_per_word (line_data : CaptionLine) (word_infos : WordInfos)
    (line_limits : List Int) (placements : List Placement)
    (placements_by_segment : Int → Option Placement)
    (letter_spacing word_spacing line_spacing : ℚ) (alignment : Int) :
    Option (List DialogueEntry) :=
  if line_data.words.isEmpty then some []
  else
    perWordAux line_data word_infos line_limits placements placements_by_segment
      letter_spacing word_spacing line_spacing alignment [] none line_data.words

/-! ### Dialogue entry construction (`_build_dialogue_entries`, lines 556–652) -/

/-- The block (default) branch of the per-line dispatch. -/
def blockEntriesForLine (line_data : CaptionLine) (word_infos : WordInfos)
    (line_limits : List Int) (placements : List Placement)
    (placements_by_segment : Int → Option Placement)
    (letter_spacing word_spacing line_spacing : ℚ) (alignment : Int) :
    Option (List DialogueEntry) :=
  let rendered := _render_lines line_data.words word_infos line_limits letter_spacing word_spacing
  if rendered.1.isEmpty then some []
  else
    let start := line_data.start
    let endv := max line_data.endTime (start + 1/100)
    match _placement_for_line line_data placements placements_by_segment start with
    | none => none
    | some placement =>
      if 0 < line_spacing ∧ 1 < rendered.1.length then
        some (_build_line_entries rendered.1 rendered.2 placement start endv alignment line_spacing)
      else
        some [DialogueEntry.mk start endv (_apply_position (joinSep nlStr rendered.1) placement)]

/-- The per-line body of `_build_dialogue_entries`: style resolution,
effective spacing, markups, then the write-on / per-word / block dispatch. -/
def entriesForLine (line_data : CaptionLine) (dynamics_map : Int → Option WordDynamics)
    (config : RenderConfig) (global_min global_max : ℚ) (placements : List Placement)
    (placements_by_segment : Int → Option Placement) (color_overrides : List SegmentColor)
    (default_color default_shadow : String) (segment_styles : List SegmentStyle) :
    Option (List DialogueEntry) :=
  let segment_style := _segment_style_for_line line_data (stylesById segment_styles) segment_styles
  let size_mapping := _effective_size_mapping config.size_mapping segment_style
  let letter_spacing := match segment_style with
    | some st => match st.letter_spacing with | some v => v | none => config.letter_spacing
    | none => config.letter_spacing
  let word_spacing := match segment_style with
    | some st => match st.word_spacing with | some v => v | none => config.word_spacing
    | none => config.word_spacing
  let line_spacing0 := match segment_style with
    | some st => match st.line_spacing with | some v => v | none => config.line_spacing
    | none => config.line_spacing
  let line_spacing := max 0 line_spacing0
  let word_infos := _compute_line_markups line_data dynamics_map config size_mapping
    global_min global_max color_overrides default_color default_shadow segment_style
  let line_limits := config.display.line_word_limits
  match segment_style with
  | some st =>
    if !st.write_on.isEmpty then
      _dialogues_write_on line_data word_infos line_limits placements placements_by_segment
        letter_spacing word_spacing line_spacing config.alignment st.write_on
    else if config.display.reveal_mode = perWordModeStr then
      _dialogues_per_word line_data word_infos line_limits placements placements_by_segment
        letter_spacing word_spacing line_spacing config.alignment
    else
      blockEntriesForLine line_data word_infos line_limits placements placements_by_segment
        letter_spacing word_spacing line_spacing config.alignment
  | none =>
    if config.display.reveal_mode = perWordModeStr then
      _dialogues_per_word line_data word_infos line_limits placements placements_by_segment
        letter_spacing word_spacing line_spacing config.alignment
    else
      blockEntriesForLine line_data word_infos line_limits placements placements_by_segment
        letter_spacing word_spacing line_spacing config.alignment

/-- `_build_dialogue_entries`: concatenation over the caption lines;
`none` models a propagated `IndexError` from placement resolution. -/
def _build_dialogue_entries (caption_lines : List CaptionLine)
    (dynamics_map : Int → Option WordDynamics) (config : RenderConfig)
    (global_min global_max : ℚ) (placements : List Placement)
    (placements_by_segment : Int → Option Placement) (color_overrides : List SegmentColor)
    (default_color default_shadow : String) (segment_styles : List SegmentStyle) :
    Option (List DialogueEntry) :=
  match caption_lines with
  | [] => some []
  | line_data :: rest =>
    match entriesForLine line_data dynamics_map config global_min global_max placements
        placements_by_segment color_overrides default_color default_shadow segment_styles with
    | none => none
    | some line_entries =>
      match _build_dialogue_entries rest dynamics_map config global_min global_max placements
          placements_by_segment color_overrides default_color default_shadow segment_styles with
      | some more => some (line_entries ++ more)
      | none => none

/-! ### Placement list finalisation (`_load_placements`, lines 1060–1063) -/

/-- Order on placement `end`s; `none` (`+∞`) is the top element. -/
def placementEndLE (a b : Option ℚ) : Bool :=
  match a, b with
  | some x, some y => decide (x ≤ y)
  | some _, none => true
  | none, none => true
  | none, some _ => false

/-- Stable insertion for `placements.sort(key=lambda p: p.end)`. -/
def insertPlacementSorted (p : Placement) : List Placement → List Placement
  | [] => [p]
  | q :: qs =>
    if placementEndLE p.endTime q.endTime then p :: q :: qs
    else q :: insertPlacementSorted p qs

def sortPlacementsByEnd (ps : List Placement) : List Placement :=
  ps.foldr insertPlacementSorted []

/-- The default centered placement (`width // 2`, `height // 2`: Python
floor division). -/
def defaultPlacement (width height : Int) : Placement :=
  Placement.mk none (Int.fdiv width 2) (Int.fdiv height 2) none

/-- `not placements or placements[-1].end != float("inf")`. -/
def needsDefaultSentinel (sorted : List Placement) : Bool :=
  match sorted.getLast? with
  | none => true
  | some last => decide (last.endTime ≠ none)

/-- Lines 1060–1063 of `_load_placements`: sort the time pool by `end` and
guarantee a terminal `end = +∞` entry. -/
def finalizePlacements (ps : List Placement) (width height : Int) : List Placement :=
  if needsDefaultSentinel (sortPlacementsByEnd ps) then
    sortPlacementsByEnd ps ++ [defaultPlacement width height]
  else sortPlacementsByEnd ps

/-! ### Derived views used by the claims -/

/-- The resolved font size a word of a caption line receives in
`_compute_line_markups`: the clamped size of `_word_markup` (line 108) for
loudness-matched words, and the minimum of the active range (the
`size_mapping.min_size` written into `_fallback_markup`'s tag, line 982)
for unmatched words. -/
def lineWordSize (size_mapping : SizeMapping) (rms_min rms_max : ℚ)
    (dynamics_map : Int → Option WordDynamics) (word : WordTiming) : ℚ :=
  match dynamics_map word.index with
  | some dynamics => resolvedWordSize dynamics.rms size_mapping rms_min rms_max
  | none => size_mapping.min_size

/-- Second definition for the per-word refinement claim, following the
spec's words: per-word reveal over a line with a fixed placement "emits one
dialogue entry per word, cumulatively including all prior words of the line
so far"; the entry for the `k`-th word renders exactly the first `k` words
(`pre ++ [word]`), with the boundary times of §4.5. -/
def specPerWordAux (line_data : CaptionLine) (word_infos : WordInfos)
    (line_limits : List Int) (letter_spacing word_spacing : ℚ) (placement : Placement) :
    List WordTiming → List WordTiming → List DialogueEntry
  | _, [] => []
  | pre, word :: rest =>
    let visible := pre ++ [word]
    let start := max line_data.start word.start
    DialogueEntry.mk start (max (start + 1/100) (perWordEndCandidate line_data word rest))
        (_apply_position
          (joinSep nlStr (_render_lines visible word_infos line_limits letter_spacing word_spacing).1)
          placement)
      :: specPerWordAux line_data word_infos line_limits letter_spacing word_spacing placement
          visible rest

/-- The spec-side model of per-word reveal with constant placement: the
`k`-th entry (0-based) renders `line_data.words.take (k+1)`. -/
def specPerWordEntries (line_data : CaptionLine) (word_infos : WordInfos)
    (line_limits : List Int) (letter_spacing word_spacing : ℚ) (placement : Placement) :
    List DialogueEntry :=
  specPerWordAux line_data word_infos line_limits letter_spacing word_spacing placement
    [] line_data.words

/-! ### Concrete instances for witnesses and counterexamples -/

def blackHexStr : String := "#000000"
def arialStr : String := "Arial"
def segmentModeStr : String := "segment"
def markupMStr : String := "m"

def cwA : WordTiming := { index := 0, text := "a", start := 0, endTime := 1/2 }

def baseDisplay : DisplayConfig :=
  { mode := segmentModeStr, words_per_caption := 6, interval_seconds := 3,
    rolling_window := 6, windows := [], reveal_mode := "block", line_word_limits := [] }

def baseConfig : RenderConfig :=
  { size_mapping := { min_size := 24, max_size := 48 }, font_bands := [],
    default_font := arialStr, font_style := boldStr, line_spacing := 0,
    letter_spacing := 0, word_spacing := 0, alignment := 7,
    font_color := whiteHexStr, shadow_color := blackHexStr,
    segment_styles := [], display := baseDisplay }

def centerPlacement : Placement := { endTime := none, x := 960, y := 540 }
def stdPlacements : List Placement := [centerPlacement]
def noDyn : Int → Option WordDynamics := fun _ => none
def noSegPlacement : Int → Option Placement := fun _ => none
def noStyleById : Int → Option SegmentStyle := fun _ => none

/-- Block-reveal caption line with `line.end == line.start` (C2 scenario). -/
def blockZeroLine : CaptionLine := { start := 2, endTime := 2, words := [cwA] }

/-- One-segment transcript (C3 counterexample). -/
def c3Transcript : Transcript :=
  ⟨[{ index := 0, start := 0, endTime := 1, text := "a", words := [cwA] }]⟩

def c4w0 : WordTiming := { index := 0, text := "aa", start := 0, endTime := 1 }
def c4w1 : WordTiming := { index := 1, text := "bb", start := 1, endTime := 2 }
def c4w2 : WordTiming := { index := 2, text := "cc", start := 2, endTime := 3 }
def c4Line : CaptionLine := { start := 0, endTime := 3, words := [c4w0, c4w1, c4w2] }
def c4Infos : WordInfos := fun _ => some { markup := markupMStr, size := 10 }

def c5Frames : List WriteOnKeyframe := [{ time := 1, value := 1/4 }, { time := 0, value := 1/2 }]

def flatLine : CaptionLine := { start := 0, endTime := 1, words := [cwA] }
def flatD : WordDynamics := { word_index := 0, start := 0, endTime := 1, rms := 1/2, peak := 1 }
def flatDyn : Int → Option WordDynamics := fun _ => some flatD

def c9Word : WordTiming := { index := 0, text := "hi", start := 0, endTime := 1 }
def c9WindowIds : ManualWindow := { start := 0, endTime := 1, id := none, word_ids := [0] }
def c9WindowOverlap : ManualWindow := { start := 0, endTime := 1, id := none, word_ids := [] }

def c10OverlapStyle : SegmentStyle := { id := none, start := 0, endTime := 1 }
def c10IdLine : CaptionLine := { start := 0, endTime := 1, words := [], segment_id := some 5 }

def c6Line : CaptionLine := { start := 0, endTime := 1, words := [], segment_id := some 3 }
def c6SegMap : Int → Option Placement := fun i => if i = 3 then some centerPlacement else none

/-- The entries the pipeline emits for the C2 block scenario. -/
def c2Entries : List DialogueEntry :=
  (_build_dialogue_entries [blockZeroLine] noDyn baseConfig 0 0 stdPlacements noSegPlacement []
    whiteHexStr blackHexStr []).getD []

/-! ## Theorems -/

/-! ### Shared lemmas -/

theorem clamp_bounds (m : SizeMapping) (h : m.min_size ≤ m.max_size) (v : ℚ) :
    m.min_size ≤ m.clamp v ∧ m.clamp v ≤ m.max_size := by
  unfold SizeMapping.clamp
  exact ⟨le_min h (le_max_left _ _), min_le_left _ _⟩

theorem effective_size_mapping_sorted (base : SizeMapping) (style : Option SegmentStyle)
    (h : base.min_size ≤ base.max_size) :
    (_effective_size_mapping base style).min_size ≤ (_effective_size_mapping base style).max_size := by
  cases style with
  | none => simpa [_effective_size_mapping] using h
  | some st =>
    simp only [_effective_size_mapping]
    split
    next h2 => exact le_of_lt h2
    next h2 => exact le_of_not_lt h2

theorem pyRound_nonpos (q : ℚ) (h : q < 0) : pyRound q ≤ 0 := by
  have hf : ⌊q⌋ < 0 := by
    have hq : q < ((0 : ℤ) : ℚ) := by exact_mod_cast h
    exact Int.floor_lt.mpr hq
  simp only [pyRound]
  split
  · omega
  · split
    · omega
    · split <;> omega

/-! ### C1 -/

/-- C1: for every word of every caption line, loudness-matched or not, the
resolved font size lies within `[min_size, max_size]` of the effective size
mapping (the base `SizeMapping` — under its data-model invariant
`min_size ≤ max_size` — or the segment-style override range after the
min/max swap), with the loudness range the pipeline actually passes. -/
theorem resolved_size_within_effective_range
    (base : SizeMapping) (style : Option SegmentStyle) (line_data : CaptionLine)
    (dynamics_map : Int → Option WordDynamics) (global_min global_max : ℚ)
    (word : WordTiming) (hbase : base.min_size ≤ base.max_size)
    (_hmem : word ∈ line_data.words) :
    (_effective_size_mapping base style).min_size ≤
        lineWordSize (_effective_size_mapping base style)
          (lineRmsRange line_data dynamics_map global_min global_max).1
          (lineRmsRange line_data dynamics_map global_min global_max).2
          dynamics_map word ∧
      lineWordSize (_effective_size_mapping base style)
          (lineRmsRange line_data dynamics_map global_min global_max).1
          (lineRmsRange line_data dynamics_map global_min global_max).2
          dynamics_map word ≤ (_effective_size_mapping base style).max_size := by
  have hsm := effective_size_mapping_sorted base style hbase
  cases hd : dynamics_map word.index with
  | none =>
    simp only [lineWordSize, hd]
    exact ⟨le_refl _, hsm⟩
  | some d =>
    simp only [lineWordSize, hd, resolvedWordSize]
    exact clamp_bounds _ hsm _

theorem resolved_size_within_effective_range_witness :
    baseConfig.size_mapping.min_size ≤ baseConfig.size_mapping.max_size ∧
    cwA ∈ flatLine.words ∧
    ((_effective_size_mapping baseConfig.size_mapping none).min_size ≤
        lineWordSize (_effective_size_mapping baseConfig.size_mapping none)
          (lineRmsRange flatLine noDyn 0 1).1 (lineRmsRange flatLine noDyn 0 1).2 noDyn cwA ∧
      lineWordSize (_effective_size_mapping baseConfig.size_mapping none)
          (lineRmsRange flatLine noDyn 0 1).1 (lineRmsRange flatLine noDyn 0 1).2 noDyn cwA ≤
        (_effective_size_mapping baseConfig.size_mapping none).max_size) :=
  ⟨by with_unfolding_all decide, by simp [flatLine],
    resolved_size_within_effective_range baseConfig.size_mapping none flatLine noDyn 0 1 cwA
      (by with_unfolding_all decide) (by simp [flatLine])⟩

/-! ### C7 -/

/-- C7: whenever the effective loudness range of a caption line is flat
(`range_max ≤ range_min`, which includes the fallback to the global range
when the line has no matched words or equal local extremes), every
loudness-matched word of the line normalizes to exactly `0.5`. -/
theorem flat_range_normalizes_to_half
    (line_data : CaptionLine) (dynamics_map : Int → Option WordDynamics)
    (global_min global_max : ℚ)
    (hflat : (lineRmsRange line_data dynamics_map global_min global_max).2 ≤
      (lineRmsRange line_data dynamics_map global_min global_max).1)
    (word : WordTiming) (_hmem : word ∈ line_data.words) (d : WordDynamics)
    (_hd : dynamics_map word.index = some d) :
    normalizedLoudness d.rms
      (lineRmsRange line_data dynamics_map global_min global_max).1
      (lineRmsRange line_data dynamics_map global_min global_max).2 = 1/2 := by
  unfold normalizedLoudness clamp01
  rw [if_pos hflat]
  norm_num

theorem flat_range_normalizes_to_half_witness :
    (lineRmsRange flatLine flatDyn 0 0).2 ≤ (lineRmsRange flatLine flatDyn 0 0).1 ∧
    flatDyn cwA.index = some flatD ∧
    normalizedLoudness flatD.rms (lineRmsRange flatLine flatDyn 0 0).1
      (lineRmsRange flatLine flatDyn 0 0).2 = 1/2 :=
  ⟨by with_unfolding_all decide, rfl,
    flat_range_normalizes_to_half flatLine flatDyn 0 0 (by with_unfolding_all decide) cwA
      (by simp [flatLine]) flatD rfl⟩

/-! ### C5 -/

theorem monotonizeFramesAux_pairwise (l : List WriteOnKeyframe) : ∀ last_value : ℚ,
    (monotonizeFramesAux last_value l).Pairwise (fun a b => a.value ≤ b.value) ∧
    ∀ f ∈ monotonizeFramesAux last_value l, last_value ≤ f.value := by
  induction l with
  | nil => intro last_value; simp [monotonizeFramesAux]
  | cons f fs ih =>
    intro last_value
    obtain ⟨hp, hall⟩ := ih (max f.value last_value)
    simp only [monotonizeFramesAux]
    refine ⟨List.Pairwise.cons ?_ hp, ?_⟩
    · intro b hb
      exact hall b hb
    · intro g hg
      rcases List.mem_cons.mp hg with rfl | hg2
      · exact le_max_right _ _
      · exact le_trans (le_max_right _ _) (hall g hg2)

/-- C5: after write-on keyframe normalization (clamp into
`[line.start, line.end]`, 1ms-merge keeping the later frame, sort by time,
running maxima of values), the effective values are monotone
non-decreasing: for all `i < j`, `value[i] ≤ value[j]`. -/
theorem write_on_normalized_monotone (keyframes : List WriteOnKeyframe) (start endT : ℚ)
    (i j : Fin (_normalize_write_on_keyframes keyframes start endT).length) (hij : i < j) :
    ((_normalize_write_on_keyframes keyframes start endT).get i).value ≤
      ((_normalize_write_on_keyframes keyframes start endT).get j).value := by
  have hp : (_normalize_write_on_keyframes keyframes start endT).Pairwise
      (fun a b => a.value ≤ b.value) := by
    unfold _normalize_write_on_keyframes
    exact (monotonizeFramesAux_pairwise _ 0).1
  exact List.pairwise_iff_get.mp hp i j hij

theorem write_on_normalized_monotone_witness :
    (⟨0, by with_unfolding_all decide⟩ : Fin (_normalize_write_on_keyframes c5Frames 0 1).length) <
      ⟨1, by with_unfolding_all decide⟩ ∧
    ((_normalize_write_on_keyframes c5Frames 0 1).get ⟨0, by with_unfolding_all decide⟩).value ≤
      ((_normalize_write_on_keyframes c5Frames 0 1).get ⟨1, by with_unfolding_all decide⟩).value :=
  ⟨by with_unfolding_all decide,
    write_on_normalized_monotone c5Frames 0 1 _ _ (by with_unfolding_all decide)⟩

/-! ### C8 -/

/-- C8: `_format_timestamp` produces `H:MM:SS.CC` where the total
centisecond count is `round(s·100)` floor-clamped to ≥ 0, the minute,
second, centisecond fields are two-digit zero-padded with `MM < 60`,
`SS < 60`, `CC < 100`, hours are the unpadded decimal of an unbounded
value, and negative inputs format as `0:00:00.00`. -/
theorem format_timestamp_fields (seconds : ℚ) :
    _format_timestamp seconds =
        toString (timestampCentis seconds / 360000) ++ colonStr ++
        pad2 (timestampCentis seconds / 6000 % 60) ++ colonStr ++
        pad2 (timestampCentis seconds / 100 % 60) ++ dotStr ++
        pad2 (timestampCentis seconds % 100) ∧
      timestampCentis seconds % 100 < 100 ∧
      timestampCentis seconds / 100 % 60 < 60 ∧
      timestampCentis seconds / 6000 % 60 < 60 ∧
      (pad2 (timestampCentis seconds / 6000 % 60)).length = 2 ∧
      (pad2 (timestampCentis seconds / 100 % 60)).length = 2 ∧
      (pad2 (timestampCentis seconds % 100)).length = 2 ∧
      timestampCentis seconds / 360000 * 360000 + timestampCentis seconds / 6000 % 60 * 6000 +
          timestampCentis seconds / 100 % 60 * 100 + timestampCentis seconds % 100 =
        timestampCentis seconds ∧
      (seconds < 0 → _format_timestamp seconds = "0:00:00.00") := by
  have hpad : ∀ n, n < 100 → (pad2 n).length = 2 := by decide
  have h60 : ∀ n : Nat, n % 60 < 100 :=
    fun n => lt_of_lt_of_le (Nat.mod_lt _ (by norm_num)) (by norm_num)
  refine ⟨?_, Nat.mod_lt _ (by norm_num), Nat.mod_lt _ (by norm_num),
    Nat.mod_lt _ (by norm_num), hpad _ (h60 _), hpad _ (h60 _),
    hpad _ (Nat.mod_lt _ (by norm_num)), ?_, ?_⟩
  · simp only [_format_timestamp, timestampCentis, Nat.div_div_eq_div_mul]
  · omega
  · intro hneg
    have h1 : pyRound (seconds * 100) ≤ 0 :=
      pyRound_nonpos _ (mul_neg_of_neg_of_pos hneg (by norm_num))
    have hc : (max 0 (pyRound (seconds * 100))).toNat = 0 := by
      rw [max_eq_left h1]
      rfl
    simp only [_format_timestamp, hc]
    decide

theorem format_timestamp_fields_witness :
    (-(37 : ℚ)/10 < 0) ∧ _format_timestamp (-(37 : ℚ)/10) = "0:00:00.00" :=
  ⟨by with_unfolding_all decide,
    (format_timestamp_fields (-(37 : ℚ)/10)).2.2.2.2.2.2.2.2 (by with_unfolding_all decide)⟩

/-! ### C10 -/

/-- C10: a caption line with a non-null `segment_id` only ever receives the
exact-id style (`styles_by_id`), independent of the time-ranged list — so
when no override carries that id, no style applies at all, even for
overlapping time-ranged overrides; time-overlap matching is attempted only
for lines whose `segment_id` is null. -/
theorem segment_style_id_priority :
    (∀ (line_data : CaptionLine) (styles_by_id : Int → Option SegmentStyle)
        (styles : List SegmentStyle) (sid : Int), line_data.segment_id = some sid →
        _segment_style_for_line line_data styles_by_id styles = styles_by_id sid) ∧
    (∀ (line_data : CaptionLine) (styles_by_id : Int → Option SegmentStyle)
        (styles : List SegmentStyle), line_data.segment_id = none →
        _segment_style_for_line line_data styles_by_id styles =
          styles.find? (fun style =>
            decide (style.start ≤ line_data.endTime) &&
              decide (line_data.start ≤ style.endTime))) ∧
    _segment_style_for_line c10IdLine (stylesById [c10OverlapStyle]) [c10OverlapStyle] = none := by
  refine ⟨?_, ?_, ?_⟩
  · intro line_data styles_by_id styles sid h
    simp [_segment_style_for_line, h]
  · intro line_data styles_by_id styles h
    simp [_segment_style_for_line, h]
  · with_unfolding_all rfl

theorem segment_style_id_priority_witness :
    c10IdLine.segment_id = some 5 ∧
    _segment_style_for_line c10IdLine (stylesById [c10OverlapStyle]) [c10OverlapStyle] =
      stylesById [c10OverlapStyle] 5 :=
  ⟨rfl, segment_style_id_priority.1 c10IdLine (stylesById [c10OverlapStyle]) [c10OverlapStyle] 5 rfl⟩

/-! ### C9 -/

/-- C9: a manual window with a non-empty `word_ids` list bypasses the
forward cursor entirely — its words come from the id lookup (absent ids
silently skipped), and the remaining windows are processed with the very
same cursor — so the same word can appear in several `word_ids` windows,
or again in a later overlap-matched window (concrete instances below),
unlike the single-assignment overlap path. -/
theorem manual_word_ids_bypass :
    (∀ (lookup : Int → Option WordTiming) (cursor : List WordTiming)
        (window : ManualWindow) (rest : List ManualWindow), window.word_ids ≠ [] →
        _group_manual_windows_aux lookup cursor (window :: rest) =
          (if (window.word_ids.filterMap lookup).isEmpty then []
            else [CaptionLine.mk window.start window.endTime
                  (window.word_ids.filterMap lookup) window.id]) ++
            _group_manual_windows_aux lookup cursor rest) ∧
    _group_manual_windows [c9Word] [c9WindowIds, c9WindowIds] =
      [CaptionLine.mk 0 1 [c9Word] none, CaptionLine.mk 0 1 [c9Word] none] ∧
    _group_manual_windows [c9Word] [c9WindowIds, c9WindowOverlap] =
      [CaptionLine.mk 0 1 [c9Word] none, CaptionLine.mk 0 1 [c9Word] none] := by
  refine ⟨?_, ?_, ?_⟩
  · intro lookup cursor window rest h
    have hne : window.word_ids.isEmpty = false := by
      cases hw : window.word_ids with
      | nil => exact absurd hw h
      | cons a l => rfl
    simp [_group_manual_windows_aux, hne]
  · with_unfolding_all rfl
  · with_unfolding_all rfl

theorem manual_word_ids_bypass_witness :
    c9WindowIds.word_ids ≠ [] ∧
    _group_manual_windows_aux (wordLookup [c9Word]) [c9Word] [c9WindowIds] =
      (if (c9WindowIds.word_ids.filterMap (wordLookup [c9Word])).isEmpty then []
        else [CaptionLine.mk c9WindowIds.start c9WindowIds.endTime
              (c9WindowIds.word_ids.filterMap (wordLookup [c9Word])) c9WindowIds.id]) ++
        _group_manual_windows_aux (wordLookup [c9Word]) [c9Word] [] :=
  ⟨by with_unfolding_all decide,
    manual_word_ids_bypass.1 (wordLookup [c9Word]) [c9Word] c9WindowIds []
      (by with_unfolding_all decide)⟩

/-! ### C6 -/

theorem placementEndLE_total (a b : Option ℚ) :
    placementEndLE a b = true ∨ placementEndLE b a = true := by
  cases a with
  | none => cases b <;> simp [placementEndLE]
  | some x =>
    cases b with
    | none => simp [placementEndLE]
    | some y =>
      simp only [placementEndLE, decide_eq_true_eq]
      exact le_total x y

theorem placementEndLE_trans {a b c : Option ℚ} (h1 : placementEndLE a b = true)
    (h2 : placementEndLE b c = true) : placementEndLE a c = true := by
  cases a with
  | none => cases b <;> simp_all [placementEndLE]
  | some x =>
    cases c with
    | none => simp [placementEndLE]
    | some z =>
      cases b with
      | none => simp_all [placementEndLE]
      | some y =>
        simp only [placementEndLE, decide_eq_true_eq] at h1 h2 ⊢
        exact le_trans h1 h2

theorem placementEndLE_none (a : Option ℚ) : placementEndLE a none = true := by
  cases a <;> rfl

theorem mem_insertPlacementSorted (p x : Placement) (l : List Placement) :
    x ∈ insertPlacementSorted p l ↔ x = p ∨ x ∈ l := by
  induction l with
  | nil => simp [insertPlacementSorted]
  | cons q qs ih =>
    simp only [insertPlacementSorted]
    split
    · simp [List.mem_cons]
    · simp only [List.mem_cons, ih]
      tauto

theorem insertPlacementSorted_pairwise (p : Placement) (l : List Placement)
    (hl : l.Pairwise (fun a b => placementEndLE a.endTime b.endTime = true)) :
    (insertPlacementSorted p l).Pairwise
      (fun a b => placementEndLE a.endTime b.endTime = true) := by
  induction l with
  | nil => simp [insertPlacementSorted]
  | cons q qs ih =>
    rcases List.pairwise_cons.mp hl with ⟨hq, hqs⟩
    simp only [insertPlacementSorted]
    split
    next hle =>
      refine List.Pairwise.cons ?_ hl
      intro b hb
      rcases List.mem_cons.mp hb with rfl | hb2
      · exact hle
      · exact placementEndLE_trans hle (hq b hb2)
    next hnle =>
      refine List.Pairwise.cons ?_ (ih hqs)
      intro b hb
      rcases (mem_insertPlacementSorted p b qs).mp hb with hbp | hb2
      · rw [hbp]
        rcases placementEndLE_total p.endTime q.endTime with hh | hh
        · exact absurd hh hnle
        · exact hh
      · exact hq b hb2

theorem sortPlacementsByEnd_pairwise (l : List Placement) :
    (sortPlacementsByEnd l).Pairwise
      (fun a b => placementEndLE a.endTime b.endTime = true) := by
  induction l with
  | nil => simp [sortPlacementsByEnd]
  | cons p ps ih => exact insertPlacementSorted_pairwise p (sortPlacementsByEnd ps) ih

theorem finalizePlacements_pairwise (ps : List Placement) (w h : Int) :
    (finalizePlacements ps w h).Pairwise
      (fun a b => placementEndLE a.endTime b.endTime = true) := by
  have hs := sortPlacementsByEnd_pairwise ps
  have happ : ((sortPlacementsByEnd ps) ++ [defaultPlacement w h]).Pairwise
      (fun a b => placementEndLE a.endTime b.endTime = true) := by
    refine List.pairwise_append.mpr ⟨hs, by simp, ?_⟩
    intro a _ b hb
    rcases List.mem_singleton.mp hb with rfl
    exact placementEndLE_none _
  unfold finalizePlacements
  cases hb : needsDefaultSentinel (sortPlacementsByEnd ps) with
  | true =>
    rw [if_pos rfl]
    exact happ
  | false =>
    rw [if_neg (by simp [hb])]
    exact hs

theorem finalizePlacements_getLast (ps : List Placement) (w h : Int) :
    ∃ lp, (finalizePlacements ps w h).getLast? = some lp ∧ lp.endTime = none := by
  unfold finalizePlacements
  cases hb : needsDefaultSentinel (sortPlacementsByEnd ps) with
  | true =>
    rw [if_pos rfl]
    exact ⟨defaultPlacement w h, by simp [List.getLast?_concat], rfl⟩
  | false =>
    rw [if_neg (by simp [hb])]
    cases hgl : (sortPlacementsByEnd ps).getLast? with
    | none => simp [needsDefaultSentinel, hgl] at hb
    | some last =>
      refine ⟨last, rfl, ?_⟩
      simp only [needsDefaultSentinel, hgl, decide_eq_false_iff_not, not_not] at hb
      exact hb

theorem placement_for_time_finalized (ps : List Placement) (w h : Int) (t : ℚ) :
    _placement_for_time (finalizePlacements ps w h) t =
      (finalizePlacements ps w h).find? (fun p => placementLE t p.endTime) ∧
    ((finalizePlacements ps w h).find? (fun p => placementLE t p.endTime)).isSome := by
  obtain ⟨lp, hlast, hend⟩ := finalizePlacements_getLast ps w h
  have hmem : lp ∈ finalizePlacements ps w h := by
    obtain ⟨hne, heq⟩ := List.mem_getLast?_eq_getLast (l := finalizePlacements ps w h) (x := lp)
      (by simp [hlast])
    rw [heq]
    exact List.getLast_mem hne
  have hsat : placementLE t lp.endTime = true := by rw [hend]; rfl
  have hsome : ((finalizePlacements ps w h).find? (fun p => placementLE t p.endTime)).isSome :=
    List.find?_isSome.mpr ⟨lp, hmem, hsat⟩
  cases ho : (finalizePlacements ps w h).find? (fun p => placementLE t p.endTime) with
  | none =>
    rw [ho] at hsome
    simp at hsome
  | some q =>
    constructor
    · unfold _placement_for_time
      rw [ho]
    · rfl

/-- C6: the finalized placement list always ends with an `end = +∞` entry
(appended automatically when absent, the default centered placement), is in
ascending `end` order, time lookup returns exactly the first entry with
`end ≥ query` and is total, and a segment-keyed placement takes priority
for id-tagged lines. -/
theorem placement_resolution_first_match :
    (∀ (ps : List Placement) (w h : Int),
        ∃ lp, (finalizePlacements ps w h).getLast? = some lp ∧ lp.endTime = none) ∧
    (∀ (ps : List Placement) (w h : Int), (finalizePlacements ps w h).Pairwise
        (fun a b => placementEndLE a.endTime b.endTime = true)) ∧
    (∀ (w h : Int), finalizePlacements [] w h = [defaultPlacement w h]) ∧
    (∀ (ps : List Placement) (w h : Int) (t : ℚ),
        _placement_for_time (finalizePlacements ps w h) t =
          (finalizePlacements ps w h).find? (fun p => placementLE t p.endTime) ∧
        ((finalizePlacements ps w h).find? (fun p => placementLE t p.endTime)).isSome) ∧
    (∀ (line_data : CaptionLine) (ps : List Placement)
        (psSeg : Int → Option Placement) (t : ℚ) (sid : Int) (p : Placement),
        line_data.segment_id = some sid → psSeg sid = some p →
        _placement_for_line line_data ps psSeg t = some p) :=
  ⟨finalizePlacements_getLast, finalizePlacements_pairwise, fun _ _ => rfl,
    placement_for_time_finalized,
    fun line_data ps psSeg t sid p h1 h2 => by simp [_placement_for_line, h1, h2]⟩

theorem placement_resolution_first_match_witness :
    c6Line.segment_id = some 3 ∧ c6SegMap 3 = some centerPlacement ∧
    _placement_for_line c6Line [] c6SegMap 0 = some centerPlacement :=
  ⟨rfl, by with_unfolding_all rfl,
    placement_resolution_first_match.2.2.2.2 c6Line [] c6SegMap 0 3 centerPlacement rfl
      (by with_unfolding_all rfl)⟩

/-! ### C2 -/

theorem buildLineEntriesAux_times (pos_x line_alignment : Int) (start endT line_spacing : ℚ) :
    ∀ (l : List (String × ℚ)) (y : ℚ) (e : DialogueEntry),
      e ∈ buildLineEntriesAux pos_x line_alignment start endT line_spacing l y →
      e.start = start ∧ e.endTime = endT := by
  intro l
  induction l with
  | nil =>
    intro y e he
    simp [buildLineEntriesAux] at he
  | cons hd tl ih =>
    intro y e he
    obtain ⟨text, height⟩ := hd
    simp only [buildLineEntriesAux, List.mem_cons] at he
    rcases he with rfl | he2
    · exact ⟨rfl, rfl⟩
    · exact ih _ e he2

theorem build_line_entries_times (rl : List String) (lh : List ℚ) (p : Placement)
    (s en : ℚ) (al : Int) (lsp : ℚ) :
    ∀ e ∈ _build_line_entries rl lh p s en al lsp, e.start = s ∧ e.endTime = en := by
  intro e he
  unfold _build_line_entries at he
  by_cases hre : rl.isEmpty
  · rw [if_pos hre] at he
    simp at he
  · rw [if_neg hre] at he
    exact buildLineEntriesAux_times _ _ _ _ _ _ _ e he

theorem entries_if_bound (rl : List String) (lh : List ℚ) (placement : Placement)
    (start endv : ℚ) (alignment : Int) (line_spacing : ℚ)
    (hse : start + 1/100 ≤ endv) (e : DialogueEntry)
    (he : e ∈ (if 0 < line_spacing ∧ 1 < rl.length then
        _build_line_entries rl lh placement start endv alignment line_spacing
      else [DialogueEntry.mk start endv (_apply_position (joinSep nlStr rl) placement)])) :
    e.start + 1/100 ≤ e.endTime := by
  split at he
  · obtain ⟨h1, h2⟩ := build_line_entries_times rl lh placement start endv alignment line_spacing e he
    rw [h1, h2]
    exact hse
  · rcases List.mem_singleton.mp he with rfl
    simpa using hse

theorem perWordAux_min_duration (line_data : CaptionLine) (word_infos : WordInfos)
    (line_limits : List Int) (placements : List Placement) (psSeg : Int → Option Placement)
    (ls ws lsp : ℚ) (al : Int) :
    ∀ (remaining visible : List WordTiming) (lastPos : Option (Int × Int))
      (entries : List DialogueEntry),
      perWordAux line_data word_infos line_limits placements psSeg ls ws lsp al
        visible lastPos remaining = some entries →
      ∀ e ∈ entries, e.start + 1/100 ≤ e.endTime := by
  intro remaining
  induction remaining with
  | nil =>
    intro visible lastPos entries h e he
    simp only [perWordAux, Option.some.injEq] at h
    subst h
    simp at he
  | cons word rest ih =>
    intro visible lastPos entries h e he
    simp only [perWordAux] at h
    cases hpl : _placement_for_line line_data placements psSeg (max line_data.start word.start) with
    | none => simp [hpl] at h
    | some placement =>
      simp only [hpl] at h
      split at h
      · exact ih _ _ _ h e he
      · cases hrec : perWordAux line_data word_infos line_limits placements psSeg ls ws lsp al
            (perWordVisible visible lastPos (placement.x, placement.y) word)
            (some (placement.x, placement.y)) rest with
        | none => simp [hrec] at h
        | some more =>
          simp only [hrec, Option.some.injEq] at h
          subst h
          rcases List.mem_append.mp he with h1 | h1
          · exact entries_if_bound _ _ _ _ _ _ _ (le_max_left _ _) e h1
          · exact ih _ _ _ hrec e h1

theorem writeOnEventsAux_min_duration (line_data : CaptionLine) (word_infos : WordInfos)
    (line_limits : List Int) (placements : List Placement) (psSeg : Int → Option Placement)
    (ls ws lsp : ℚ) (al : Int) :
    ∀ (events : List (ℚ × Nat)) (entries : List DialogueEntry),
      writeOnEventsAux line_data word_infos line_limits placements psSeg ls ws lsp al events =
        some entries →
      ∀ e ∈ entries, e.start + 1/100 ≤ e.endTime := by
  intro events
  induction events with
  | nil =>
    intro entries h e he
    simp only [writeOnEventsAux, Option.some.injEq] at h
    subst h
    simp at he
  | cons ev rest ih =>
    intro entries h e he
    obtain ⟨start_time, count⟩ := ev
    simp only [writeOnEventsAux] at h
    split at h
    · exact ih _ h e he
    · split at h
      · exact ih _ h e he
      · split at h
        · exact ih _ h e he
        · cases hpl : _placement_for_line line_data placements psSeg start_time with
          | none => simp [hpl] at h
          | some placement =>
            simp only [hpl] at h
            cases hrec : writeOnEventsAux line_data word_infos line_limits placements psSeg
                ls ws lsp al rest with
            | none => simp [hrec] at h
            | some more =>
              simp only [hrec, Option.some.injEq] at h
              subst h
              rcases List.mem_append.mp he with h1 | h1
              · exact entries_if_bound _ _ _ _ _ _ _ (le_max_left _ _) e h1
              · exact ih _ hrec e h1

theorem blockEntriesForLine_min_duration (line_data : CaptionLine) (word_infos : WordInfos)
    (line_limits : List Int) (placements : List Placement) (psSeg : Int → Option Placement)
    (ls ws lsp : ℚ) (al : Int) (entries : List DialogueEntry)
    (h : blockEntriesForLine line_data word_infos line_limits placements psSeg ls ws lsp al =
      some entries) :
    ∀ e ∈ entries, e.start + 1/100 ≤ e.endTime := by
  intro e he
  simp only [blockEntriesForLine] at h
  split at h
  · simp only [Option.some.injEq] at h
    subst h
    simp at he
  · cases hpl : _placement_for_line line_data placements psSeg line_data.start with
    | none => simp [hpl] at h
    | some placement =>
      simp only [hpl] at h
      split at h
      · simp only [Option.some.injEq] at h
        subst h
        obtain ⟨h1, h2⟩ := build_line_entries_times _ _ _ _ _ _ _ e he
        rw [h1, h2]
        exact le_max_right _ _
      · simp only [Option.some.injEq] at h
        subst h
        rcases List.mem_singleton.mp he with rfl
        simp only []
        exact le_max_right line_data.endTime (line_data.start + 1/100)

theorem dialogues_write_on_min_duration (line_data : CaptionLine) (word_infos : WordInfos)
    (line_limits : List Int) (placements : List Placement) (psSeg : Int → Option Placement)
    (ls ws lsp : ℚ) (al : Int) (keyframes : List WriteOnKeyframe)
    (entries : List DialogueEntry)
    (h : _dialogues_write_on line_data word_infos line_limits placements psSeg ls ws lsp al
      keyframes = some entries) :
    ∀ e ∈ entries, e.start + 1/100 ≤ e.endTime := by
  intro e he
  simp only [_dialogues_write_on] at h
  split at h
  · simp only [Option.some.injEq] at h
    subst h
    simp at he
  · split at h
    · simp only [Option.some.injEq] at h
      subst h
      simp at he
    · split at h
      · simp only [Option.some.injEq] at h
        subst h
        simp at he
      · split at h
        · simp only [Option.some.injEq] at h
          subst h
          simp at he
        · exact writeOnEventsAux_min_duration _ _ _ _ _ _ _ _ _ _ _ h e he

theorem dialogues_per_word_min_duration (line_data : CaptionLine) (word_infos : WordInfos)
    (line_limits : List Int) (placements : List Placement) (psSeg : Int → Option Placement)
    (ls ws lsp : ℚ) (al : Int) (entries : List DialogueEntry)
    (h : _dialogues_per_word line_data word_infos line_limits placements psSeg ls ws lsp al =
      some entries) :
    ∀ e ∈ entries, e.start + 1/100 ≤ e.endTime := by
  intro e he
  simp only [_dialogues_per_word] at h
  split at h
  · simp only [Option.some.injEq] at h
    subst h
    simp at he
  · exact perWordAux_min_duration _ _ _ _ _ _ _ _ _ _ _ _ _ h e he

theorem entriesForLine_min_duration (line_data : CaptionLine)
    (dynamics_map : Int → Option WordDynamics) (config : RenderConfig)
    (global_min global_max : ℚ) (placements : List Placement)
    (psSeg : Int → Option Placement) (color_overrides : List SegmentColor)
    (default_color default_shadow : String) (segment_styles : List SegmentStyle)
    (entries : List DialogueEntry)
    (h : entriesForLine line_data dynamics_map config global_min global_max placements psSeg
      color_overrides default_color default_shadow segment_styles = some entries) :
    ∀ e ∈ entries, e.start + 1/100 ≤ e.endTime := by
  intro e he
  simp only [entriesForLine] at h
  cases hss : _segment_style_for_line line_data (stylesById segment_styles) segment_styles with
  | none =>
    simp only [hss] at h
    split at h
    · exact dialogues_per_word_min_duration _ _ _ _ _ _ _ _ _ _ h e he
    · exact blockEntriesForLine_min_duration _ _ _ _ _ _ _ _ _ _ h e he
  | some st =>
    simp only [hss] at h
    split at h
    · exact dialogues_write_on_min_duration _ _ _ _ _ _ _ _ _ _ _ h e he
    · split at h
      · exact dialogues_per_word_min_duration _ _ _ _ _ _ _ _ _ _ h e he
      · exact blockEntriesForLine_min_duration _ _ _ _ _ _ _ _ _ _ h e he

theorem build_dialogue_entries_min_duration
    (dynamics_map : Int → Option WordDynamics) (config : RenderConfig)
    (global_min global_max : ℚ) (placements : List Placement)
    (psSeg : Int → Option Placement) (color_overrides : List SegmentColor)
    (default_color default_shadow : String) (segment_styles : List SegmentStyle) :
    ∀ (caption_lines : List CaptionLine) (entries : List DialogueEntry),
      _build_dialogue_entries caption_lines dynamics_map config global_min global_max placements
        psSeg color_overrides default_color default_shadow segment_styles = some entries →
      ∀ e ∈ entries, e.start + 1/100 ≤ e.endTime := by
  intro caption_lines
  induction caption_lines with
  | nil =>
    intro entries h e he
    simp only [_build_dialogue_entries, Option.some.injEq] at h
    subst h
    simp at he
  | cons line_data rest ih =>
    intro entries h e he
    simp only [_build_dialogue_entries] at h
    cases hfl : entriesForLine line_data dynamics_map config global_min global_max placements
        psSeg color_overrides default_color default_shadow segment_styles with
    | none => simp [hfl] at h
    | some line_entries =>
      simp only [hfl] at h
      cases hrest : _build_dialogue_entries rest dynamics_map config global_min global_max
          placements psSeg color_overrides default_color default_shadow segment_styles with
      | none => simp [hrest] at h
      | some more =>
        simp only [hrest, Option.some.injEq] at h
        subst h
        rcases List.mem_append.mp he with h1 | h1
        · exact entriesForLine_min_duration _ _ _ _ _ _ _ _ _ _ _ _ hfl e h1
        · exact ih _ hrest e h1

/-- C2: every `DialogueEntry` emitted for any caption line — under block,
per-word, or write-on reveal — satisfies `end > start` strictly with a
minimum duration of 0.01 s; and a block-reveal line with
`line.end == line.start` yields exactly one entry of duration exactly
0.01 s. -/
theorem dialogue_entries_min_duration :
    (∀ (caption_lines : List CaptionLine) (dynamics_map : Int → Option WordDynamics)
        (config : RenderConfig) (global_min global_max : ℚ) (placements : List Placement)
        (psSeg : Int → Option Placement) (color_overrides : List SegmentColor)
        (default_color default_shadow : String) (segment_styles : List SegmentStyle)
        (entries : List DialogueEntry),
        _build_dialogue_entries caption_lines dynamics_map config global_min global_max placements
          psSeg color_overrides default_color default_shadow segment_styles = some entries →
        ∀ e ∈ entries, e.start + 1/100 ≤ e.endTime ∧ e.start < e.endTime) ∧
    (_build_dialogue_entries [blockZeroLine] noDyn baseConfig 0 0 stdPlacements noSegPlacement []
        whiteHexStr blackHexStr []).map (List.map fun e => (e.start, e.endTime)) =
      some [(2, 2 + 1/100)] := by
  constructor
  · intro caption_lines dynamics_map config global_min global_max placements psSeg
      color_overrides default_color default_shadow segment_styles entries h e he
    have hb := build_dialogue_entries_min_duration dynamics_map config global_min global_max
      placements psSeg color_overrides default_color default_shadow segment_styles
      caption_lines entries h e he
    exact ⟨hb, lt_of_lt_of_le (lt_add_of_pos_right _ (by norm_num)) hb⟩
  · with_unfolding_all rfl

theorem dialogue_entries_min_duration_witness :
    _build_dialogue_entries [blockZeroLine] noDyn baseConfig 0 0 stdPlacements noSegPlacement []
        whiteHexStr blackHexStr [] = some c2Entries ∧
    ∀ e ∈ c2Entries, e.start + 1/100 ≤ e.endTime ∧ e.start < e.endTime :=
  ⟨by with_unfolding_all rfl,
    dialogue_entries_min_duration.1 [blockZeroLine] noDyn baseConfig 0 0 stdPlacements
      noSegPlacement [] whiteHexStr blackHexStr [] c2Entries (by with_unfolding_all rfl)⟩

/-! ### C3 -/

theorem _placement_for_time_isSome (ps : List Placement) (t : ℚ) (h : ps ≠ []) :
    (_placement_for_time ps t).isSome := by
  unfold _placement_for_time
  cases hf : ps.find? (fun p => placementLE t p.endTime) with
  | some p => rfl
  | none => exact List.getLast?_isSome.mpr h

theorem _placement_for_line_isSome (line_data : CaptionLine) (ps : List Placement)
    (psSeg : Int → Option Placement) (t : ℚ) (h : ps ≠ []) :
    (_placement_for_line line_data ps psSeg t).isSome := by
  unfold _placement_for_line
  cases line_data.segment_id with
  | none => exact _placement_for_time_isSome ps t h
  | some sid =>
    show (match psSeg sid with
      | some p => some p
      | none => _placement_for_time ps t).isSome = true
    cases hp : psSeg sid with
    | some p => simp [hp]
    | none =>
      simp only [hp]
      exact _placement_for_time_isSome ps t h

theorem perWordAux_isSome (line_data : CaptionLine) (word_infos : WordInfos)
    (line_limits : List Int) (placements : List Placement) (psSeg : Int → Option Placement)
    (ls ws lsp : ℚ) (al : Int) (h : placements ≠ []) :
    ∀ (remaining visible : List WordTiming) (lastPos : Option (Int × Int)),
      (perWordAux line_data word_infos line_limits placements psSeg ls ws lsp al
        visible lastPos remaining).isSome := by
  intro remaining
  induction remaining with
  | nil => intro visible lastPos; rfl
  | cons word rest ih =>
    intro visible lastPos
    simp only [perWordAux]
    obtain ⟨placement, hpl⟩ := Option.isSome_iff_exists.mp
      (_placement_for_line_isSome line_data placements psSeg (max line_data.start word.start) h)
    simp only [hpl]
    split
    · exact ih _ _
    · obtain ⟨more, hrec⟩ := Option.isSome_iff_exists.mp
        (ih (perWordVisible visible lastPos (placement.x, placement.y) word)
          (some (placement.x, placement.y)))
      simp only [hrec]
      rfl

theorem writeOnEventsAux_isSome (line_data : CaptionLine) (word_infos : WordInfos)
    (line_limits : List Int) (placements : List Placement) (psSeg : Int → Option Placement)
    (ls ws lsp : ℚ) (al : Int) (h : placements ≠ []) :
    ∀ events : List (ℚ × Nat),
      (writeOnEventsAux line_data word_infos line_limits placements psSeg ls ws lsp al
        events).isSome := by
  intro events
  induction events with
  | nil => rfl
  | cons ev rest ih =>
    obtain ⟨start_time, count⟩ := ev
    simp only [writeOnEventsAux]
    split
    · exact ih
    · split
      · exact ih
      · split
        · exact ih
        · obtain ⟨placement, hpl⟩ := Option.isSome_iff_exists.mp
            (_placement_for_line_isSome line_data placements psSeg start_time h)
          simp only [hpl]
          obtain ⟨more, hrec⟩ := Option.isSome_iff_exists.mp ih
          simp only [hrec]
          rfl

theorem blockEntriesForLine_isSome (line_data : CaptionLine) (word_infos : WordInfos)
    (line_limits : List Int) (placements : List Placement) (psSeg : Int → Option Placement)
    (ls ws lsp : ℚ) (al : Int) (h : placements ≠ []) :
    (blockEntriesForLine line_data word_infos line_limits placements psSeg ls ws lsp al).isSome := by
  simp only [blockEntriesForLine]
  split
  · rfl
  · obtain ⟨placement, hpl⟩ := Option.isSome_iff_exists.mp
      (_placement_for_line_isSome line_data placements psSeg line_data.start h)
    simp only [hpl]
    split
    · rfl
    · rfl

theorem dialogues_write_on_isSome (line_data : CaptionLine) (word_infos : WordInfos)
    (line_limits : List Int) (placements : List Placement) (psSeg : Int → Option Placement)
    (ls ws lsp : ℚ) (al : Int) (keyframes : List WriteOnKeyframe) (h : placements ≠ []) :
    (_dialogues_write_on line_data word_infos line_limits placements psSeg ls ws lsp al
      keyframes).isSome := by
  simp only [_dialogues_write_on]
  split
  · rfl
  · split
    · rfl
    · split
      · rfl
      · split
        · rfl
        · exact writeOnEventsAux_isSome line_data word_infos line_limits placements psSeg
            ls ws lsp al h _

theorem dialogues_per_word_isSome (line_data : CaptionLine) (word_infos : WordInfos)
    (line_limits : List Int) (placements : List Placement) (psSeg : Int → Option Placement)
    (ls ws lsp : ℚ) (al : Int) (h : placements ≠ []) :
    (_dialogues_per_word line_data word_infos line_limits placements psSeg ls ws lsp al).isSome := by
  simp only [_dialogues_per_word]
  split
  · rfl
  · exact perWordAux_isSome line_data word_infos line_limits placements psSeg ls ws lsp al h _ _ _

theorem entriesForLine_isSome (line_data : CaptionLine)
    (dynamics_map : Int → Option WordDynamics) (config : RenderConfig)
    (global_min global_max : ℚ) (placements : List Placement)
    (psSeg : Int → Option Placement) (color_overrides : List SegmentColor)
    (default_color default_shadow : String) (segment_styles : List SegmentStyle)
    (h : placements ≠ []) :
    (entriesForLine line_data dynamics_map config global_min global_max placements psSeg
      color_overrides default_color default_shadow segment_styles).isSome := by
  simp only [entriesForLine]
  cases hss : _segment_style_for_line line_data (stylesById segment_styles) segment_styles with
  | none =>
    simp only [hss]
    split
    · exact dialogues_per_word_isSome _ _ _ _ _ _ _ _ _ h
    · exact blockEntriesForLine_isSome _ _ _ _ _ _ _ _ _ h
  | some st =>
    simp only [hss]
    split
    · exact dialogues_write_on_isSome _ _ _ _ _ _ _ _ _ _ h
    · split
      · exact dialogues_per_word_isSome _ _ _ _ _ _ _ _ _ h
      · exact blockEntriesForLine_isSome _ _ _ _ _ _ _ _ _ h

theorem build_dialogue_entries_isSome
    (dynamics_map : Int → Option WordDynamics) (config : RenderConfig)
    (global_min global_max : ℚ) (placements : List Placement)
    (psSeg : Int → Option Placement) (color_overrides : List SegmentColor)
    (default_color default_shadow : String) (segment_styles : List SegmentStyle)
    (h : placements ≠ []) :
    ∀ caption_lines : List CaptionLine,
      (_build_dialogue_entries caption_lines dynamics_map config global_min global_max placements
        psSeg color_overrides default_color default_shadow segment_styles).isSome := by
  intro caption_lines
  induction caption_lines with
  | nil => rfl
  | cons line_data rest ih =>
    simp only [_build_dialogue_entries]
    obtain ⟨line_entries, hfl⟩ := Option.isSome_iff_exists.mp
      (entriesForLine_isSome line_data dynamics_map config global_min global_max placements
        psSeg color_overrides default_color default_shadow segment_styles h)
    simp only [hfl]
    obtain ⟨more, hrest⟩ := Option.isSome_iff_exists.mp ih
    simp only [hrest]
    rfl

/-- C3 (amended): caption-line grouping is total, and dialogue-entry
construction never "raises" (is `some`) for every structurally well-formed
input **provided the placement list is nonempty** — which
`_load_placements` always guarantees via the `end = +∞` sentinel.  With an
empty placement list the claim as stated fails (see the counterexample
theorem): `_placement_for_time` evaluates `placements[-1]` and raises
`IndexError`. -/
theorem layout_pipeline_total_with_nonempty_placements
    (transcript : Transcript) (dynamics_map : Int → Option WordDynamics)
    (config : RenderConfig) (global_min global_max : ℚ) (placements : List Placement)
    (psSeg : Int → Option Placement) (color_overrides : List SegmentColor)
    (default_color default_shadow : String) (segment_styles : List SegmentStyle)
    (hps : placements ≠ []) :
    (_build_dialogue_entries (_build_caption_lines transcript config.display) dynamics_map config
      global_min global_max placements psSeg color_overrides default_color default_shadow
      segment_styles).isSome :=
  build_dialogue_entries_isSome dynamics_map config global_min global_max placements psSeg
    color_overrides default_color default_shadow segment_styles hps
    (_build_caption_lines transcript config.display)

/-- C3 counterexample: the claim as stated quantifies over any in-memory
placement table; with the (structurally well-formed) empty table and a
one-word transcript, dialogue-entry construction reaches `placements[-1]`
on an empty list — modelled as `none`, i.e. the Python code raises
`IndexError` rather than being total. -/
theorem layout_pipeline_raises_on_empty_placements :
    _build_dialogue_entries (_build_caption_lines c3Transcript baseConfig.display) noDyn baseConfig
      0 0 [] noSegPlacement [] whiteHexStr blackHexStr [] = none := by
  with_unfolding_all rfl

theorem layout_pipeline_total_with_nonempty_placements_witness :
    stdPlacements ≠ [] ∧
    (_build_dialogue_entries (_build_caption_lines c3Transcript baseConfig.display) noDyn
      baseConfig 0 0 stdPlacements noSegPlacement [] whiteHexStr blackHexStr []).isSome :=
  ⟨by with_unfolding_all decide,
    layout_pipeline_total_with_nonempty_placements c3Transcript noDyn baseConfig 0 0 stdPlacements
      noSegPlacement [] whiteHexStr blackHexStr [] (by with_unfolding_all decide)⟩

/-! ### C4 -/

theorem isEmpty_false_of_ne_nil {α : Type} {l : List α} (h : l ≠ []) : l.isEmpty = false := by
  cases l with
  | nil => exact absurd rfl h
  | cons x xs => rfl

theorem layoutAux_mem (word_infos : WordInfos) (line_limits : List Int) :
    ∀ (ws cur : List WordTiming) (cm : ℚ) (li : Nat) (cl : Option Int),
      ∀ l ∈ layoutAux word_infos line_limits cur cm li cl ws,
        l ≠ [] ∧ ∀ x ∈ l, x ∈ cur ∨ x ∈ ws := by
  intro ws
  induction ws with
  | nil =>
    intro cur cm li cl l hl
    simp only [layoutAux] at hl
    split at hl
    · simp at hl
    next hcond =>
      rcases List.mem_singleton.mp hl with rfl
      refine ⟨?_, fun x hx => Or.inl hx⟩
      intro hnil
      rw [hnil] at hcond
      exact hcond rfl
  | cons w ws ih =>
    intro cur cm li cl l hl
    simp only [layoutAux] at hl
    split at hl
    · obtain ⟨hne, hsub⟩ := ih _ _ _ _ l hl
      refine ⟨hne, fun x hx => ?_⟩
      rcases hsub x hx with hc | hw2
      · rcases List.mem_append.mp hc with h1 | h1
        · exact Or.inl h1
        · rcases List.mem_singleton.mp h1 with rfl
          exact Or.inr (List.mem_cons_self _ _)
      · exact Or.inr (List.mem_cons_of_mem _ hw2)
    next hcond =>
      have hcur : cur ≠ [] := by
        intro hnil
        rw [hnil] at hcond
        simp at hcond
      cases hg : line_limits.get? (li + 1) with
      | some lim =>
        simp only [hg] at hl
        rcases List.mem_cons.mp hl with rfl | hl2
        · exact ⟨hcur, fun x hx => Or.inl hx⟩
        · obtain ⟨hne, hsub⟩ := ih _ _ _ _ l hl2
          refine ⟨hne, fun x hx => ?_⟩
          rcases hsub x hx with hc | hw2
          · rcases List.mem_singleton.mp hc with rfl
            exact Or.inr (List.mem_cons_self _ _)
          · exact Or.inr (List.mem_cons_of_mem _ hw2)
      | none =>
        simp only [hg] at hl
        rcases List.mem_cons.mp hl with rfl | hl2
        · exact ⟨hcur, fun x hx => Or.inl hx⟩
        · obtain ⟨hne, hsub⟩ := ih _ _ _ _ l hl2
          refine ⟨hne, fun x hx => ?_⟩
          rcases hsub x hx with hc | hw2
          · rcases List.mem_singleton.mp hc with rfl
            exact Or.inr (List.mem_cons_self _ _)
          · exact Or.inr (List.mem_cons_of_mem _ hw2)

theorem layoutAux_ne_nil (word_infos : WordInfos) (line_limits : List Int) :
    ∀ (ws cur : List WordTiming) (cm : ℚ) (li : Nat) (cl : Option Int),
      cur ≠ [] ∨ ws ≠ [] →
      layoutAux word_infos line_limits cur cm li cl ws ≠ [] := by
  intro ws
  induction ws with
  | nil =>
    intro cur cm li cl h
    rcases h with hc | hw
    · simp [layoutAux, isEmpty_false_of_ne_nil hc]
    · exact absurd rfl hw
  | cons w ws ih =>
    intro cur cm li cl _
    simp only [layoutAux]
    split
    · exact ih _ _ _ _ (Or.inl (by simp))
    · cases hg : line_limits.get? (li + 1) with
      | some lim => simp
      | none => simp

theorem render_lines_fst_ne_nil (visible : List WordTiming) (word_infos : WordInfos)
    (line_limits : List Int) (ls ws : ℚ) (hv : visible ≠ [])
    (hinfo : ∀ w ∈ visible, (word_infos w.index).isSome) :
    (_render_lines visible word_infos line_limits ls ws).1 ≠ [] := by
  unfold _render_lines _layout_words_by_size
  have hlnn : layoutAux word_infos line_limits [] 0 0 (line_limits.get? 0) visible ≠ [] :=
    layoutAux_ne_nil word_infos line_limits visible [] 0 0 (line_limits.get? 0) (Or.inr hv)
  have hmem := layoutAux_mem word_infos line_limits visible [] 0 0 (line_limits.get? 0)
  cases hly : layoutAux word_infos line_limits [] 0 0 (line_limits.get? 0) visible with
  | nil => exact absurd hly hlnn
  | cons lw rest =>
    obtain ⟨hlw_ne, hlw_sub⟩ := hmem lw (hly ▸ List.mem_cons_self _ _)
    simp only [renderLinesAux]
    have htok : lw.filterMap (fun word => (word_infos word.index).map WordRender.markup) ≠ [] := by
      cases lw with
      | nil => exact absurd rfl hlw_ne
      | cons x xs =>
        have hx : x ∈ visible := by
          rcases hlw_sub x (List.mem_cons_self _ _) with hc | hc
          · simp at hc
          · exact hc
        obtain ⟨info, hi⟩ := Option.isSome_iff_exists.mp (hinfo x hx)
        simp [List.filterMap_cons, hi]
    rw [if_neg (by simp [isEmpty_false_of_ne_nil htok])]
    simp

theorem perWordAux_spec (line_data : CaptionLine) (word_infos : WordInfos)
    (line_limits : List Int) (placements : List Placement) (psSeg : Int → Option Placement)
    (ls ws : ℚ) (al : Int) (placement : Placement)
    (hp : ∀ word ∈ line_data.words, _placement_for_line line_data placements psSeg
      (max line_data.start word.start) = some placement)
    (hinfo : ∀ word ∈ line_data.words, (word_infos word.index).isSome) :
    ∀ (rest pre : List WordTiming), pre ++ rest = line_data.words →
      perWordAux line_data word_infos line_limits placements psSeg ls ws 0 al pre
        (some (placement.x, placement.y)) rest =
      some (specPerWordAux line_data word_infos line_limits ls ws placement pre rest) := by
  intro rest
  induction rest with
  | nil => intro pre _; rfl
  | cons word rest2 ih =>
    intro pre hsplit
    have hw_mem : word ∈ line_data.words := by
      rw [← hsplit]
      exact List.mem_append.mpr (Or.inr (List.mem_cons_self _ _))
    have hpl := hp word hw_mem
    simp only [perWordAux, hpl]
    have hvd : perWordVisible pre (some (placement.x, placement.y)) (placement.x, placement.y)
        word = pre ++ [word] := by
      simp [perWordVisible]
    rw [hvd]
    have hvis_info : ∀ w ∈ pre ++ [word], (word_infos w.index).isSome := by
      intro w hw2
      apply hinfo
      rw [← hsplit]
      rcases List.mem_append.mp hw2 with h1 | h1
      · exact List.mem_append.mpr (Or.inl h1)
      · rcases List.mem_singleton.mp h1 with rfl
        exact List.mem_append.mpr (Or.inr (List.mem_cons_self _ _))
    have hre := render_lines_fst_ne_nil (pre ++ [word]) word_infos line_limits ls ws
      (by simp) hvis_info
    rw [if_neg (by simp [isEmpty_false_of_ne_nil hre])]
    rw [if_neg (by simp)]
    rw [ih (pre ++ [word]) (by rw [List.append_assoc]; exact hsplit)]
    rfl

theorem specPerWordAux_length (line_data : CaptionLine) (word_infos : WordInfos)
    (line_limits : List Int) (ls ws : ℚ) (placement : Placement) :
    ∀ (rest pre : List WordTiming),
      (specPerWordAux line_data word_infos line_limits ls ws placement pre rest).length =
        rest.length := by
  intro rest
  induction rest with
  | nil => intro pre; rfl
  | cons word rest2 ih =>
    intro pre
    simp only [specPerWordAux, List.length_cons, ih]

/-- C4: under per-word reveal with zero line spacing, for a caption line
whose resolved placement is the same for every word and whose words all
carry a rendered info, the emitted dialogue entries are exactly the
spec-side cumulative-prefix entries (`specPerWordEntries`: the `k`-th entry
renders `words.take (k+1)`, so texts are word-prefixes of each other), one
entry per word. -/
theorem per_word_cumulative_prefix_entries (line_data : CaptionLine) (word_infos : WordInfos)
    (line_limits : List Int) (placements : List Placement) (psSeg : Int → Option Placement)
    (ls ws : ℚ) (al : Int) (placement : Placement)
    (hp : ∀ word ∈ line_data.words, _placement_for_line line_data placements psSeg
      (max line_data.start word.start) = some placement)
    (hinfo : ∀ word ∈ line_data.words, (word_infos word.index).isSome) :
    _dialogues_per_word line_data word_infos line_limits placements psSeg ls ws 0 al =
      some (specPerWordEntries line_data word_infos line_limits ls ws placement) ∧
    (specPerWordEntries line_data word_infos line_limits ls ws placement).length =
      line_data.words.length := by
  constructor
  · simp only [_dialogues_per_word, specPerWordEntries]
    cases hw : line_data.words with
    | nil => simp [specPerWordAux]
    | cons w rest =>
      rw [if_neg (by simp)]
      have hw_mem : w ∈ line_data.words := by
        rw [hw]
        exact List.mem_cons_self _ _
      have hpl := hp w hw_mem
      simp only [perWordAux, hpl]
      have hvd : perWordVisible [] none (placement.x, placement.y) w = [w] := by
        simp [perWordVisible]
      rw [hvd]
      have hvis_info : ∀ x ∈ [w], (word_infos x.index).isSome := by
        intro x hx
        rcases List.mem_singleton.mp hx with rfl
        exact hinfo x hw_mem
      have hre := render_lines_fst_ne_nil [w] word_infos line_limits ls ws (by simp) hvis_info
      rw [if_neg (by simp [isEmpty_false_of_ne_nil hre])]
      rw [if_neg (by simp)]
      rw [perWordAux_spec line_data word_infos line_limits placements psSeg ls ws al placement
        hp hinfo rest [w] (by simpa using hw.symm)]
      rfl
  · exact specPerWordAux_length line_data word_infos line_limits ls ws placement
      line_data.words []

theorem per_word_cumulative_prefix_entries_witness :
    (∀ word ∈ c4Line.words, _placement_for_line c4Line stdPlacements noSegPlacement
      (max c4Line.start word.start) = some centerPlacement) ∧
    (∀ word ∈ c4Line.words, (c4Infos word.index).isSome) ∧
    (_dialogues_per_word c4Line c4Infos [] stdPlacements noSegPlacement 0 0 0 7 =
        some (specPerWordEntries c4Line c4Infos [] 0 0 centerPlacement) ∧
      (specPerWordEntries c4Line c4Infos [] 0 0 centerPlacement).length =
        c4Line.words.length) :=
  ⟨by with_unfolding_all decide, by with_unfolding_all decide,
    per_word_cumulative_prefix_entries c4Line c4Infos [] stdPlacements noSegPlacement 0 0 7
      centerPlacement (by with_unfolding_all decide) (by with_unfolding_all decide)⟩

end OneSub
